import Mathlib

/-!
# videoservice: the frame dispatcher and its HTTP front end

A shallow embedding of `framer/framer.go` and of the frame handlers of
`api/api.go`.

* The sequential code (`NewFramer`, `NewAPI`, the filter chain built by
  `extractFrame`, the parameter parsing of `GetFrame`, the reply chosen by
  `handleGetFrameRequest`) is embedded as pure functions.
* The concurrent code (`EnqueueJob`, `Run` and the goroutine `Run` spawns per
  admitted job) is embedded as a labelled transition system: a state holds the
  program counter of every goroutine and the contents of every channel, and an
  action is one atomic move of one goroutine (or of the environment: a context
  being cancelled, the engine returning, the caller receiving).  A blocked
  operation is an action that is not enabled; a `select` with several ready
  cases has several enabled actions.
-/

namespace framer

/-- The type `[]byte`. -/
abbrev Bytes := List Nat

/-- The struct `framer.Config`. -/
structure Config where
  MaxProcesses : Int
deriving DecidableEq, Repr

/-- The struct `framer.Framer`; its two channels live in the run-time `State`. -/
structure Framer where
  cfg : Config
deriving DecidableEq, Repr

/-- The struct `framer.Result`; `Err = none` is the nil error. -/
structure Result where
  Data : Bytes
  Err : Option String
deriving DecidableEq, Repr

/-- The struct `framer.Job` without its channel `ch`, which is kept next to
the job in `JobSt`. -/
structure Job where
  filepath : String
  index : Int
  width : Int
  height : Int
  thumbnail : Bool
deriving DecidableEq, Repr

/-- `NewFramer` (framer.go 37-42). -/
def NewFramer (cfg : Config) : Framer :=
  let cfg := if cfg.MaxProcesses ≤ 0 then { cfg with MaxProcesses := 16 } else cfg
  { cfg := cfg }

/-! ## extractFrame: the filter chain -/

/-- One `stream.Filter(name, ffmpeg.Args{arg})` node. -/
structure Filter where
  name : String
  arg : String
deriving DecidableEq, Repr

/-- The verb `%d` of `fmt.Sprintf` on an `int`. -/
def fmtD (i : Int) : String := toString i

/-- The filter chain `extractFrame` hands to ffmpeg (framer.go 106-129). -/
def extractFrameFilters (index width height : Int) (thumbnail : Bool) : List Filter :=
  let w := if width ≤ 0 then -1 else width
  let h := if height ≤ 0 then -1 else height
  let stream := [Filter.mk "select" ("gte(n," ++ fmtD index ++ ")")]
  if w > 0 ∨ h > 0 then
    let stream := stream ++
      [Filter.mk "scale" (fmtD w ++ ":" ++ fmtD h ++ ":force_original_aspect_ratio=decrease")]
    if thumbnail = true ∧ w > 0 ∧ h > 0 then
      stream ++ [Filter.mk "pad" (fmtD w ++ ":" ++ fmtD h ++ ":(ow-iw)/2:(oh-ih)/2")]
    else stream
  else stream

/-- The tail of `extractFrame` (framer.go 131-144): `run` is what the ffmpeg
process did with the chain, an error or the bytes written to the buffer. -/
def extractFrame (run : Except String Bytes) : Bytes × Option String :=
  match run with
  | .error err => ([], some err)
  | .ok buf => (buf, none)

/-- The decimal digit `d` as a character. -/
def decimalDigit (d : Nat) : Char := Char.ofNat (48 + d)

/-- The decimal digits of `n`, most significant first, without leading
zeros; `fuel` bounds the number of digits and `n + 1` is always enough. -/
def decimalNat : Nat → Nat → List Char
  | 0, _ => []
  | fuel + 1, n =>
    if n < 10 then [decimalDigit n]
    else decimalNat fuel (n / 10) ++ [decimalDigit (n % 10)]

/-- The decimal numeral of an integer: its digits, after a minus sign when
it is negative. -/
def decimal : Int → String
  | .ofNat n => String.mk (decimalNat (n + 1) n)
  | .negSucc n => "-" ++ String.mk (decimalNat (n + 2) (n + 1))

/-- The chain as the specification words it: the text written for a
requested dimension, the numeral of a positive one and `-1` otherwise. -/
def specDim (d : Int) : String := if 0 < d then decimal d else "-1"

/-- The chain as the specification words it: select always, scale when a
dimension is positive, pad when thumbnail and both are positive. -/
def specFilters (index width height : Int) (thumbnail : Bool) : List Filter :=
  [Filter.mk "select" ("gte(n," ++ decimal index ++ ")")]
  ++ (if 0 < width ∨ 0 < height then
        [Filter.mk "scale"
          (specDim width ++ ":" ++ specDim height ++ ":force_original_aspect_ratio=decrease")]
      else [])
  ++ (if thumbnail = true ∧ 0 < width ∧ 0 < height then
        [Filter.mk "pad" (specDim width ++ ":" ++ specDim height ++ ":(ow-iw)/2:(oh-ih)/2")]
      else [])

end framer

namespace storage

/-- The struct `storage.Config`. -/
structure Config where
  LocalDirectory : String
deriving DecidableEq, Repr

/-- The struct `storage.Storage`. -/
structure Storage where
  cfg : Config
deriving DecidableEq, Repr

/-- `Storage.GetPath` (storage.go 23-25); `join` stands for the library
function `filepath.Join`. -/
def GetPath (join : String → String → String) (s : Storage) (filename : String) : String :=
  join s.cfg.LocalDirectory filename

end storage

namespace api

/-- The struct `api.Config`. -/
structure Config where
  IsProd : Bool
  ListenPort : Int
  ThumbnailWidth : Int
  ThumbnailHeight : Int
deriving DecidableEq, Repr

/-- The struct `api.API`. -/
structure API where
  cfg : Config
  frm : framer.Framer
  sto : storage.Storage
deriving DecidableEq, Repr

/-- `NewAPI` (api.go 34-49); the second component is the returned error,
which is always nil. -/
def NewAPI (cfg : Config) (frm : framer.Framer) (sto : storage.Storage) : API × Option String :=
  let cfg := if cfg.ListenPort ≤ 0 then { cfg with ListenPort := 3000 } else cfg
  let cfg := if cfg.ThumbnailWidth ≤ 0 then { cfg with ThumbnailWidth := 128 } else cfg
  let cfg := if cfg.ThumbnailHeight ≤ 0 then { cfg with ThumbnailHeight := 128 } else cfg
  ({ cfg := cfg, frm := frm, sto := sto }, none)

/-- The library function `strconv.Atoi` on a 64-bit platform: an optional
sign, then one or more decimal digits, the value within the range of `int`.
The result is `none` exactly when Go returns a non-nil error. -/
def Atoi (s : String) : Option Int :=
  let cs := s.toList
  let neg := cs.head? = some '-'
  let ds := if cs.head? = some '-' ∨ cs.head? = some '+' then cs.tail else cs
  if ds = [] ∨ ds.all Char.isDigit = false then none
  else
    let n : Nat := ds.foldl (fun acc c => 10 * acc + (c.toNat - 48)) 0
    let v : Int := if neg then -(n : Int) else (n : Int)
    if -(2 : Int) ^ 63 ≤ v ∧ v < (2 : Int) ^ 63 then some v else none

/-- The request headers that `http.ServeContent` reads, each as
`r.Header.Get` returns it: `""` when the header is absent. -/
structure Header where
  Range : String
  IfMatch : String
  IfNoneMatch : String
  IfModifiedSince : String
  IfUnmodifiedSince : String
  IfRange : String
deriving DecidableEq, Repr

/-- A request without Range and without conditional headers. -/
def noHeader : Header :=
  { Range := "", IfMatch := "", IfNoneMatch := "", IfModifiedSince := "",
    IfUnmodifiedSince := "", IfRange := "" }

/-- What the handler reads of `*http.Request`: the two route variables of
`mux.Vars(r)`, the two query values `r.URL.Query().Get(..)`, which are `""`
when the parameter is absent, and the headers `http.ServeContent` reads.  The
method is GET, the only one the routes of api.go 201-202 accept. -/
structure Request where
  filename : String
  index : String
  width : String
  height : String
  header : Header
deriving DecidableEq, Repr

/-- What `http.ServeContent` takes from outside the request: `time.Now()` in
Unix seconds, the library function `http.ParseTime` (the Unix seconds of an
HTTP date, `none` when it does not parse), and the boundary the multipart
writer draws for a reply with several ranges. -/
structure Env where
  now : Int
  ParseTime : String → Option Int
  boundary : String

/-- The body of a reply: the text given to `http.Error` (the `fmt.Sprintf`
format; the rendered error value is not modelled), raw content, or the
`multipart/byteranges` encoding of the parts given by offset and bytes. -/
inductive Body where
  | message (format : String)
  | content (data : framer.Bytes)
  | byteranges (boundary : String) (parts : List (Nat × framer.Bytes))
deriving DecidableEq, Repr

/-- What the handler writes to the `http.ResponseWriter`: the status, the
`Content-Type` header (`""` when it is not set) and the body. -/
structure Response where
  status : Nat
  contentType : String
  body : Body
deriving DecidableEq, Repr

def StatusOK : Nat := 200
def StatusPartialContent : Nat := 206
def StatusNotModified : Nat := 304
def StatusBadRequest : Nat := 400
def StatusPreconditionFailed : Nat := 412
def StatusRequestedRangeNotSatisfiable : Nat := 416
def StatusInternalServerError : Nat := 500

/-- The library function `http.Error`. -/
def httpError (format : String) (code : Nat) : Response :=
  { status := code, contentType := "text/plain; charset=utf-8", body := .message format }

/-! ### The library function `http.ServeContent` -/

/-- The test `isASCIISpace` of `net/textproto`: space, tab, line feed,
carriage return. -/
def isASCIISpace (c : Char) : Bool :=
  c.toNat = 32 || c.toNat = 9 || c.toNat = 10 || c.toNat = 13

/-- The function `textproto.TrimString`. -/
def TrimString (s : List Char) : List Char :=
  ((s.dropWhile isASCIISpace).reverse.dropWhile isASCIISpace).reverse

/-- The call `strings.Split(s, ",")`. -/
def splitComma : List Char → List (List Char)
  | [] => [[]]
  | c :: cs =>
    if c = ',' then [] :: splitComma cs
    else
      match splitComma cs with
      | [] => [[c]]
      | p :: ps => (c :: p) :: ps

/-- The call `strings.Cut(s, "-")`: `none` when `s` has no dash. -/
def cutDash : List Char → Option (List Char × List Char)
  | [] => none
  | c :: cs =>
    if c = '-' then some ([], cs)
    else (cutDash cs).map (fun p => (c :: p.1, p.2))

/-- The call `strconv.ParseInt(s, 10, 64)`, `none` on an error; on 64 bits
it accepts and returns what `strconv.Atoi` does. -/
def ParseInt (s : List Char) : Option Int := Atoi (String.mk s)

/-- The struct `httpRange`. -/
structure httpRange where
  start : Int
  length : Int
deriving DecidableEq, Repr

/-- The two errors of `parseRange`. -/
inductive RangeError where
  | invalid
  | noOverlap
deriving DecidableEq, Repr

/-- The text of the error. -/
def RangeError.Error : RangeError → String
  | .invalid => "invalid range"
  | .noOverlap => "invalid range: failed to overlap"

/-- The loop of `parseRange` over the comma-separated specs, with the ranges
found so far and the `noOverlap` flag. -/
def parseRangeLoop (size : Int) :
    List (List Char) → List httpRange → Bool → Except RangeError (List httpRange)
  | [], ranges, noOverlap =>
    if noOverlap = true ∧ ranges = [] then .error .noOverlap else .ok ranges
  | ra :: rest, ranges, noOverlap =>
    let ra := TrimString ra
    if ra = [] then parseRangeLoop size rest ranges noOverlap
    else
      match cutDash ra with
      | none => .error .invalid
      | some (first, last) =>
        let first := TrimString first
        let last := TrimString last
        if first = [] then
          if last = [] ∨ last.head? = some '-' then .error .invalid
          else
            match ParseInt last with
            | none => .error .invalid
            | some i =>
              if i < 0 then .error .invalid
              else
                let i := if i > size then size else i
                parseRangeLoop size rest
                  (ranges ++ [{ start := size - i, length := size - (size - i) }]) noOverlap
        else
          match ParseInt first with
          | none => .error .invalid
          | some i =>
            if i < 0 then .error .invalid
            else if i ≥ size then parseRangeLoop size rest ranges true
            else if last = [] then
              parseRangeLoop size rest (ranges ++ [{ start := i, length := size - i }]) noOverlap
            else
              match ParseInt last with
              | none => .error .invalid
              | some j =>
                if i > j then .error .invalid
                else
                  let j := if j ≥ size then size - 1 else j
                  parseRangeLoop size rest
                    (ranges ++ [{ start := i, length := j - i + 1 }]) noOverlap

/-- The function `parseRange` of `net/http`: the ranges a Range header asks
of a content of `size` bytes. -/
def parseRange (s : String) (size : Int) : Except RangeError (List httpRange) :=
  if s = "" then .ok []
  else if s.toList.take 6 ≠ "bytes=".toList then .error .invalid
  else parseRangeLoop size (splitComma (s.toList.drop 6)) [] false

/-- The function `sumRangesSize`. -/
def sumRangesSize (ranges : List httpRange) : Int :=
  (ranges.map (fun ra => ra.length)).sum

/-- The loop of `scanETag` from position `i`, over the rest `cs` of `s`. -/
def scanETagLoop (s : List Char) : Nat → List Char → List Char × List Char
  | _, [] => ([], [])
  | i, c :: cs =>
    if c.toNat = 0x21 ∨ (0x23 ≤ c.toNat ∧ c.toNat ≤ 0x7E) ∨ 0x80 ≤ c.toNat then
      scanETagLoop s (i + 1) cs
    else if c.toNat = 34 then (s.take (i + 1), s.drop (i + 1))
    else ([], [])

/-- The function `scanETag`: the entity tag at the head of `s` and what
follows it, two empty strings when there is none. -/
def scanETag (s : List Char) : List Char × List Char :=
  let s := TrimString s
  let start := if s.take 2 = ['W', '/'] then 2 else 0
  if (s.drop start).length < 2 ∨ ((s.drop start).head?.map Char.toNat) ≠ some 34 then ([], [])
  else scanETagLoop s (start + 1) (s.drop (start + 1))

/-- The function `etagStrongMatch`. -/
def etagStrongMatch (a b : List Char) : Bool :=
  a = b ∧ a ≠ [] ∧ (a.head?.map Char.toNat) = some 34

/-- The function `etagWeakMatch`. -/
def etagWeakMatch (a b : List Char) : Bool :=
  (if a.take 2 = ['W', '/'] then a.drop 2 else a)
    = (if b.take 2 = ['W', '/'] then b.drop 2 else b)

/-- The type `condResult`. -/
inductive condResult where
  | condNone
  | condTrue
  | condFalse
deriving DecidableEq, Repr

/-- The loop of `checkIfMatch`; every round shortens `im`, so a `fuel` above
its length is never used up. -/
def checkIfMatchLoop (etag : List Char) : Nat → List Char → condResult
  | 0, _ => .condFalse
  | fuel + 1, im =>
    match TrimString im with
    | [] => .condFalse
    | c :: cs =>
      if c = ',' then checkIfMatchLoop etag fuel cs
      else if c = '*' then .condTrue
      else
        let found := scanETag (c :: cs)
        if found.1 = [] then .condFalse
        else if etagStrongMatch found.1 etag then .condTrue
        else checkIfMatchLoop etag fuel found.2

/-- The function `checkIfMatch`; `etag` is the `Etag` header of the reply. -/
def checkIfMatch (etag : String) (h : Header) : condResult :=
  if h.IfMatch = "" then .condNone
  else checkIfMatchLoop etag.toList (h.IfMatch.length + 1) h.IfMatch.toList

/-- The function `checkIfUnmodifiedSince`, the modification time being
`time.Now()`. -/
def checkIfUnmodifiedSince (env : Env) (h : Header) : condResult :=
  if h.IfUnmodifiedSince = "" then .condNone
  else
    match env.ParseTime h.IfUnmodifiedSince with
    | none => .condNone
    | some t => if env.now ≤ t then .condTrue else .condFalse

/-- The loop of `checkIfNoneMatch`, with fuel as in `checkIfMatchLoop`. -/
def checkIfNoneMatchLoop (etag : List Char) : Nat → List Char → condResult
  | 0, _ => .condTrue
  | fuel + 1, buf =>
    match TrimString buf with
    | [] => .condTrue
    | c :: cs =>
      if c = ',' then checkIfNoneMatchLoop etag fuel cs
      else if c = '*' then .condFalse
      else
        let found := scanETag (c :: cs)
        if found.1 = [] then .condTrue
        else if etagWeakMatch found.1 etag then .condFalse
        else checkIfNoneMatchLoop etag fuel found.2

/-- The function `checkIfNoneMatch`. -/
def checkIfNoneMatch (etag : String) (h : Header) : condResult :=
  if h.IfNoneMatch = "" then .condNone
  else checkIfNoneMatchLoop etag.toList (h.IfNoneMatch.length + 1) h.IfNoneMatch.toList

/-- The function `checkIfModifiedSince` for a GET request. -/
def checkIfModifiedSince (env : Env) (h : Header) : condResult :=
  if h.IfModifiedSince = "" then .condNone
  else
    match env.ParseTime h.IfModifiedSince with
    | none => .condNone
    | some t => if env.now ≤ t then .condFalse else .condTrue

/-- The function `checkIfRange` for a GET request. -/
def checkIfRange (env : Env) (etag : String) (h : Header) : condResult :=
  if h.IfRange = "" then .condNone
  else
    let found := scanETag h.IfRange.toList
    if found.1 ≠ [] then
      if etagStrongMatch found.1 etag.toList then .condTrue else .condFalse
    else
      match env.ParseTime h.IfRange with
      | none => .condFalse
      | some t => if t = env.now then .condTrue else .condFalse

/-- What `checkPreconditions` decides: reply 412, reply 304, or go on with
the Range header to honour (`""` for none). -/
inductive Precondition where
  | failed
  | notModified
  | proceed (rangeHeader : String)
deriving DecidableEq, Repr

/-- The function `checkPreconditions` for a GET request. -/
def checkPreconditions (env : Env) (etag : String) (h : Header) : Precondition :=
  let ch := match checkIfMatch etag h with
    | .condNone => checkIfUnmodifiedSince env h
    | r => r
  if ch = .condFalse then .failed
  else
    match checkIfNoneMatch etag h with
    | .condFalse => .notModified
    | .condNone =>
      if checkIfModifiedSince env h = .condFalse then .notModified
      else if h.Range ≠ "" ∧ checkIfRange env etag h = .condFalse then .proceed ""
      else .proceed h.Range
    | .condTrue =>
      if h.Range ≠ "" ∧ checkIfRange env etag h = .condFalse then .proceed ""
      else .proceed h.Range

/-- The reply `serveContent` writes once the ranges are known. -/
def serveRanges (env : Env) (contentType : String) (content : framer.Bytes)
    (ranges : List httpRange) : Response :=
  match ranges with
  | [] => { status := StatusOK, contentType := contentType, body := .content content }
  | [ra] =>
    { status := StatusPartialContent, contentType := contentType,
      body := .content ((content.drop ra.start.toNat).take ra.length.toNat) }
  | _ =>
    { status := StatusPartialContent,
      contentType := "multipart/byteranges; boundary=" ++ env.boundary,
      body := .byteranges env.boundary
        (ranges.map (fun ra =>
          (ra.start.toNat, (content.drop ra.start.toNat).take ra.length.toNat))) }

/-- The library function `http.ServeContent` as api.go 121-122 calls it: for
a GET request with the headers `h`, after the handler set `Content-Type` to
`contentType` and no `Etag`, with the modification time `time.Now()`, over
`content`. -/
def ServeContent (env : Env) (h : Header) (contentType : String) (content : framer.Bytes) :
    Response :=
  match checkPreconditions env "" h with
  | .failed =>
    { status := StatusPreconditionFailed, contentType := contentType, body := .content [] }
  | .notModified => { status := StatusNotModified, contentType := "", body := .content [] }
  | .proceed rangeReq =>
    let size : Int := content.length
    match parseRange rangeReq size with
    | .error err =>
      if err = .noOverlap ∧ size = 0 then serveRanges env contentType content []
      else httpError err.Error StatusRequestedRangeNotSatisfiable
    | .ok ranges =>
      serveRanges env contentType content (if sumRangesSize ranges > size then [] else ranges)

/-- The case the `select` of api.go 100-123 took: the request context was
done, or a receive from the result channel, which yields nil (`none`) on a
closed empty channel. -/
inductive Wait where
  | ctxDone
  | received (res : Option framer.Result)
deriving DecidableEq, Repr

/-- A run of a frame handler: it replies without calling `EnqueueJob`, or it
calls `EnqueueJob` with `job` and maps what its `select` then sees to the
reply. -/
inductive Handling where
  | reply (r : Response)
  | submit (job : framer.Job) (respond : Wait → Response)

/-- The reply of api.go 100-123 to what the `select` saw. -/
def respond (env : Env) (r : Request) (wait : Wait) : Response :=
  match wait with
  | .ctxDone => httpError "context closed" StatusInternalServerError
  | .received none => httpError "context closed" StatusInternalServerError
  | .received (some res) =>
    if res.Err ≠ none then httpError "ffmpeg error: %v" StatusInternalServerError
    else if res.Data.length = 0 then httpError "frame index out of bounds" StatusBadRequest
    else ServeContent env r.header "image/jpeg" res.Data

/-- `API.handleGetFrameRequest` (api.go 90-124). -/
def handleGetFrameRequest (join : String → String → String) (env : Env) (a : API)
    (r : Request) (width height : Int) (thumbnail : Bool) : Handling :=
  match Atoi r.index with
  | none => .reply (httpError "frame index parsing error: %v" StatusBadRequest)
  | some frameIndex =>
    .submit
      { filepath := storage.GetPath join a.sto r.filename, index := frameIndex,
        width := width, height := height, thumbnail := thumbnail }
      (respond env r)

/-- `API.GetFrame` (api.go 58-82). -/
def GetFrame (join : String → String → String) (env : Env) (a : API) (r : Request) :
    Handling :=
  match (if r.width ≠ "" then Atoi r.width else some 0) with
  | none => .reply (httpError "width parsing error: %v" StatusBadRequest)
  | some width =>
    match (if r.height ≠ "" then Atoi r.height else some 0) with
    | none => .reply (httpError "height parsing error: %v" StatusBadRequest)
    | some height => handleGetFrameRequest join env a r width height false

/-- `API.GetThumbnail` (api.go 85-87). -/
def GetThumbnail (join : String → String → String) (env : Env) (a : API) (r : Request) :
    Handling :=
  handleGetFrameRequest join env a r a.cfg.ThumbnailWidth a.cfg.ThumbnailHeight true

/-- The job a handling submitted, if any. -/
def Handling.job : Handling → Option framer.Job
  | .reply _ => none
  | .submit job _ => some job

/-- The reply of a handling whose `select`, if reached, saw `wait`. -/
def Handling.response : Handling → Wait → Response
  | .reply r, _ => r
  | .submit _ k, wait => k wait

end api

namespace framer

/-! ## The dispatcher as a transition system -/

/-- A send or a close performed on a result channel. -/
inductive ChanEvent where
  | send (r : Result)
  | close
deriving DecidableEq, Repr

/-- A `chan *Result` made with capacity 1 (framer.go 52): the buffered
values, the closed flag, and the record of the sends and closes performed on
it so far (the record is an observer, no operation reads it). -/
structure Chan where
  buf : List Result
  closed : Bool
  log : List ChanEvent
deriving DecidableEq, Repr

/-- What a channel operation does: it completes, it blocks, or it panics. -/
inductive Op (α : Type) where
  | ok (a : α)
  | blocked
  | panic
deriving DecidableEq, Repr

/-- The call `make(chan *Result, 1)`. -/
def Chan.make : Chan := { buf := [], closed := false, log := [] }

/-- The statement `ch <- r` on a channel of capacity 1. -/
def Chan.send (c : Chan) (r : Result) : Op Chan :=
  if c.closed then .panic
  else if c.buf.length < 1 then .ok { c with buf := c.buf ++ [r], log := c.log ++ [.send r] }
  else .blocked

/-- The statement `close(ch)`. -/
def Chan.close (c : Chan) : Op Chan :=
  if c.closed then .panic
  else .ok { c with closed := true, log := c.log ++ [.close] }

/-- The expression `<-ch`: a buffered value, or nil from a closed empty
channel. -/
def Chan.recv (c : Chan) : Op (Option Result × Chan) :=
  match c.buf with
  | r :: rest => .ok (some r, { c with buf := rest })
  | [] => if c.closed then .ok (none, c) else .blocked

/-- Where a call of `EnqueueJob` stands: blocked in the `select` of line 54
(`nilq` tells that `f.queue` was still nil when the `select` was entered, so
that its send case can never proceed), or returned through one of the two
cases. -/
inductive EnqPc where
  | select (nilq : Bool)
  | sent
  | cancelled
deriving DecidableEq, Repr

/-- Where the goroutine of framer.go 81-92 stands: before or inside
`extractFrame` (84), before the send of the result (85), before the close
(89), before the release of the token (91), before the deferred `wg.Done`
(82), finished. -/
inductive TaskPc where
  | extract
  | send (r : Result)
  | close
  | release
  | exit
  | done
deriving DecidableEq, Repr

/-- Where `Run` stands: not called, at the outer `select` (70), at the inner
`select` holding `job` (75), between the token send and the `go` statement
(80), at `wg.Wait()` (97), returned. -/
inductive RunPc where
  | idle
  | waitJob
  | waitToken (job : Nat)
  | spawn (job : Nat)
  | drain
  | returned
deriving DecidableEq, Repr

/-- One call of `EnqueueJob`: the job it built, whether the context it was
given is done, where the call stands, the job's result channel, and the
goroutine `Run` spawned for the job, if any. -/
structure JobSt where
  job : Job
  ctxDone : Bool
  enq : EnqPc
  ch : Chan
  task : Option TaskPc
deriving DecidableEq, Repr

/-- The state of a framer and of everything running on it.  `queue` is
`f.queue` (`none` is the nil channel, else the buffered job numbers),
`tokens` the number of values buffered in `f.tokens`, `wg` the counter of
the `sync.WaitGroup`, `jobs` the calls of `EnqueueJob` in call order, and
`panicked` tells that some goroutine panicked. -/
structure State where
  f : Framer
  ctxDone : Bool
  run : RunPc
  queue : Option (List Nat)
  tokens : Nat
  wg : Nat
  jobs : List JobSt
  panicked : Bool
deriving DecidableEq, Repr

/-- One atomic move. -/
inductive Action where
  /-- the context given to `Run` is cancelled -/
  | cancelRun
  /-- the context given to the `j`-th `EnqueueJob` is cancelled -/
  | cancelReq (j : Nat)
  /-- `EnqueueJob` is called: lines 46-53, then the `select` is entered -/
  | enqueue (job : Job)
  /-- the `select` of `EnqueueJob` takes `f.queue <- job` (55) -/
  | enqSend (j : Nat)
  /-- the `select` of `EnqueueJob` takes `<-ctx.Done()` and closes (56-57) -/
  | enqCancel (j : Nat)
  /-- the caller receives from the channel `EnqueueJob` returned -/
  | recv (j : Nat)
  /-- `Run` is called: lines 64-66 -/
  | runStart
  /-- a `select` of `Run` takes `<-ctx.Done()` (71 or 76) -/
  | runCancel
  /-- the outer `select` takes `job := <-f.queue` (74) -/
  | runRecv
  /-- the inner `select` takes `f.tokens <- struct{}{}` (79) -/
  | runToken
  /-- `wg.Add(1)` and the `go` statement (80-81) -/
  | runSpawn
  /-- `wg.Wait()` returns and `Run` with it (97) -/
  | runWait
  /-- `extractFrame` returns in the goroutine of job `j` (84) -/
  | taskExtract (j : Nat) (out : Except String Bytes)
  /-- `job.ch <- &Result{..}` (85) -/
  | taskSend (j : Nat)
  /-- `close(job.ch)` (89) -/
  | taskClose (j : Nat)
  /-- `<-f.tokens` (91) -/
  | taskRelease (j : Nat)
  /-- the deferred `wg.Done()` (82) -/
  | taskDone (j : Nat)

/-- The capacity of `f.tokens` (framer.go 65). -/
def State.cap (s : State) : Nat := s.f.cfg.MaxProcesses.toNat

/-- The state with job `j` replaced. -/
def State.setJob (s : State) (j : Nat) (x : JobSt) : State :=
  { s with jobs := s.jobs.set j x }

/-- The state after a panic. -/
def State.panic (s : State) : State := { s with panicked := true }

/-- The state before `Run` and any `EnqueueJob` is called. -/
def init (f : Framer) : State :=
  { f := f, ctxDone := false, run := .idle, queue := none, tokens := 0, wg := 0,
    jobs := [], panicked := false }

/-- A step of the goroutine `Run` starts for job `j`, the function literal
of framer.go 81-92. -/
def Run.func1 (s : State) (j : Nat) (x : JobSt) (a : Action) : Option State :=
  match a, x.task with
  | .taskExtract _ out, some .extract =>
    let (data, err) := extractFrame out
    some (s.setJob j { x with task := some (.send { Data := data, Err := err }) })
  | .taskSend _, some (.send r) =>
    match x.ch.send r with
    | .ok c => some (s.setJob j { x with ch := c, task := some .close })
    | .blocked => none
    | .panic => some s.panic
  | .taskClose _, some .close =>
    match x.ch.close with
    | .ok c => some (s.setJob j { x with ch := c, task := some .release })
    | .blocked => none
    | .panic => some s.panic
  | .taskRelease _, some .release =>
    if 0 < s.tokens then
      some { s.setJob j { x with task := some .exit } with tokens := s.tokens - 1 }
    else none
  | .taskDone _, some .exit =>
    if 0 < s.wg then some { s.setJob j { x with task := some .done } with wg := s.wg - 1 }
    else some s.panic
  | _, _ => none

/-- A step of `Framer.Run` (framer.go 63-98). -/
def Run (s : State) (a : Action) : Option State :=
  match a, s.run with
  | .runStart, .idle =>
    if s.f.cfg.MaxProcesses < 0 then some s.panic
    else some { s with queue := some [], tokens := 0, wg := 0, run := .waitJob }
  | .runCancel, .waitJob => if s.ctxDone then some { s with run := .drain } else none
  | .runCancel, .waitToken _ => if s.ctxDone then some { s with run := .drain } else none
  | .runRecv, .waitJob =>
    match s.queue with
    | some (j :: rest) => some { s with queue := some rest, run := .waitToken j }
    | _ => none
  | .runToken, .waitToken j =>
    if s.tokens < s.cap then some { s with tokens := s.tokens + 1, run := .spawn j } else none
  | .runSpawn, .spawn j =>
    match s.jobs[j]? with
    | some x =>
      some { s.setJob j { x with task := some .extract } with wg := s.wg + 1, run := .waitJob }
    | none => none
  | .runWait, .drain => if s.wg = 0 then some { s with run := .returned } else none
  | _, _ => none

/-- A step of the `j`-th call of `Framer.EnqueueJob` (framer.go 45-60), of the
context it was given, or of its caller, who receives from the returned
channel. -/
def EnqueueJob (s : State) (j : Nat) (x : JobSt) (a : Action) : Option State :=
  match a with
  | .cancelReq _ => some (s.setJob j { x with ctxDone := true })
  | .enqSend _ =>
    match x.enq, s.queue with
    | .select false, some q =>
      if q.length < 1 then
        some { s.setJob j { x with enq := .sent } with queue := some (q ++ [j]) }
      else none
    | _, _ => none
  | .enqCancel _ =>
    match x.enq with
    | .select _ =>
      if x.ctxDone then
        match x.ch.close with
        | .ok c => some (s.setJob j { x with ch := c, enq := .cancelled })
        | .blocked => none
        | .panic => some s.panic
      else none
    | _ => none
  | .recv _ =>
    match x.enq with
    | .select _ => none
    | _ =>
      match x.ch.recv with
      | .ok (_, c) => some (s.setJob j { x with ch := c })
      | _ => none
  | _ => none

/-- The transition function: the state after `a`, or `none` when `a` is not
enabled in `s`.  Nothing moves after a panic. -/
def step (s : State) (a : Action) : Option State :=
  if s.panicked then none
  else
    match a with
    | .cancelRun => some { s with ctxDone := true }
    | .enqueue job =>
      some { s with jobs := s.jobs ++
        [{ job := job, ctxDone := false, enq := .select s.queue.isNone, ch := Chan.make,
           task := none }] }
    | .cancelReq j | .enqSend j | .enqCancel j | .recv j =>
      match s.jobs[j]? with
      | some x => EnqueueJob s j x a
      | none => none
    | .taskExtract j _ | .taskSend j | .taskClose j | .taskRelease j | .taskDone j =>
      match s.jobs[j]? with
      | some x => Run.func1 s j x a
      | none => none
    | .runStart | .runCancel | .runRecv | .runToken | .runSpawn | .runWait => Run s a

/-- The state after a sequence of actions, `none` if one is not enabled. -/
def exec (s : State) : List Action → Option State
  | [] => some s
  | a :: as => (step s a).bind (fun t => exec t as)

/-- A state some interleaving reaches from `s`. -/
def ReachableFrom (s t : State) : Prop := ∃ as, exec s as = some t

/-- A state some interleaving of one `Run` and any number of `EnqueueJob`
calls on the framer `f` reaches. -/
def Reachable (f : Framer) (s : State) : Prop := ReachableFrom (init f) s

/-- The goroutine holds a token: it started and has not passed line 91. -/
def TaskPc.holdsToken : TaskPc → Bool
  | .extract | .send _ | .close | .release => true
  | .exit | .done => false

/-- The goroutine has not run its deferred `wg.Done()`. -/
def TaskPc.live : TaskPc → Bool
  | .done => false
  | _ => true

/-- The job's goroutine started and has not released its token. -/
def JobSt.holdsToken (x : JobSt) : Bool :=
  match x.task with
  | some t => t.holdsToken
  | none => false

/-- The job's goroutine started and has not finished. -/
def JobSt.live (x : JobSt) : Bool :=
  match x.task with
  | some t => t.live
  | none => false

/-- The number of extraction goroutines that started and have not released
their token. -/
def State.running (s : State) : Nat := s.jobs.countP JobSt.holdsToken

/-- The number of extraction goroutines that started and have not finished. -/
def State.unfinished (s : State) : Nat := s.jobs.countP JobSt.live

/-- Job `j` is buffered in `f.queue`. -/
def State.queued (s : State) (j : Nat) : Prop :=
  match s.queue with
  | some q => j ∈ q
  | none => False

/-- The loop of `Run` holds job `j`: it took it from the queue and has not
spawned its goroutine yet. -/
def State.held (s : State) (j : Nat) : Prop :=
  s.run = .waitToken j ∨ s.run = .spawn j

/-! ## The invariant -/

/-- The channel of a job whose goroutine stands at `t`. -/
def TaskPc.chanOk (t : TaskPc) (c : Chan) : Prop :=
  match t with
  | .extract => c.closed = false ∧ c.log = [] ∧ c.buf = []
  | .send _ => c.closed = false ∧ c.log = [] ∧ c.buf = []
  | .close => c.closed = false ∧ ∃ r, c.log = [.send r]
  | .release => c.closed = true ∧ ∃ r, c.log = [.send r, .close]
  | .exit => c.closed = true ∧ ∃ r, c.log = [.send r, .close]
  | .done => c.closed = true ∧ ∃ r, c.log = [.send r, .close]

/-- The channel state and the caller state that go with each stage of a job:
without a goroutine the channel is untouched, or closed empty when
`EnqueueJob` took its cancel case; a goroutine exists only for a job that was
sent to the queue. -/
def JobSt.wf (x : JobSt) : Prop :=
  match x.task with
  | none =>
    if x.enq = .cancelled then x.ch.closed = true ∧ x.ch.log = [.close] ∧ x.ch.buf = []
    else x.ch.closed = false ∧ x.ch.log = [] ∧ x.ch.buf = []
  | some t => x.enq = .sent ∧ t.chanOk x.ch

/-- Job `j` was sent to the queue and has no goroutine yet. -/
def State.pending (s : State) (j : Nat) : Prop :=
  ∃ x, s.jobs[j]? = some x ∧ x.enq = .sent ∧ x.task = none

/-- The token `Run` put into the pool for a goroutine it has not spawned yet. -/
def RunPc.token : RunPc → Nat
  | .spawn _ => 1
  | _ => 0

/-- The inductive invariant of the dispatcher. -/
structure Inv (s : State) : Prop where
  cfgOk : 0 ≤ s.f.cfg.MaxProcesses
  noPanic : s.panicked = false
  jobs : ∀ (j : Nat) (x : JobSt), s.jobs[j]? = some x → x.wf
  queue : ∀ q, s.queue = some q → q.length ≤ 1 ∧ ∀ j ∈ q, s.pending j
  held : ∀ j, s.held j → s.pending j ∧ ¬ s.queued j
  tokens : s.tokens = s.running + s.run.token
  cap : s.tokens ≤ s.cap
  wg : s.wg = s.unfinished
  idle : s.run = .idle → s.queue = none ∧ s.tokens = 0 ∧ s.wg = 0
  drain : s.run = .drain ∨ s.run = .returned → s.ctxDone = true
  returned : s.run = .returned → s.wg = 0

/-- What a step of job `j` may do to the job and to the loop of `Run`. -/
def JobStep (s s' : State) (j : Nat) (x : JobSt) : Prop :=
  s'.run = s.run ∧ s'.f = s.f ∧
  (s'.jobs = s.jobs ∨ ∃ x', s'.jobs = s.jobs.set j x'
    ∧ (x.enq ≠ .select true → x.enq ≠ .select false → x'.enq = x.enq)
    ∧ (x'.task ≠ none → x.task ≠ none))

/-- From `s` to `s'` every job stays in place, a taken cancel case stays
taken, a goroutine exists only where one existed or where `Run` was about to
spawn it, and a job that is new in `s'` has no goroutine. -/
def JobsMono (s s' : State) : Prop :=
  (∀ (j : Nat) (x : JobSt), s.jobs[j]? = some x → ∃ x', s'.jobs[j]? = some x'
    ∧ (x.enq ≠ .select true → x.enq ≠ .select false → x'.enq = x.enq)
    ∧ (x'.task ≠ none → x.task ≠ none ∨ s.run = .spawn j)) ∧
  (∀ (j : Nat) (x' : JobSt), s'.jobs[j]? = some x' → s.jobs[j]? = none → x'.task = none)

/-! ## Concrete runs -/

/-- A framer that admits one extraction at a time. -/
def demoFramer : Framer := NewFramer { MaxProcesses := 1 }

def jobA : Job := { filepath := "a.mp4", index := 0, width := 0, height := 0, thumbnail := false }

def jobB : Job := { filepath := "b.mp4", index := 7, width := 64, height := 64, thumbnail := true }

def jobC : Job := { filepath := "c.mp4", index := 2, width := 0, height := 32, thumbnail := false }

/-- `Run` starts and admits job 0. -/
def admitTrace : List Action :=
  [.runStart, .enqueue jobA, .enqSend 0, .runRecv, .runToken, .runSpawn]

/-- Job 0 is extracting, job 1 was taken from the queue and waits for a
token, job 2 sits in the queue. -/
def busyTrace : List Action :=
  admitTrace ++ [.enqueue jobB, .enqSend 1, .runRecv, .enqueue jobC, .enqSend 2]

/-- The context of `Run` is cancelled in the busy state, the loop takes the
cancel case, job 0 finishes, `Run` returns. -/
def shutdownTrace : List Action :=
  busyTrace ++ [.cancelRun, .runCancel, .taskExtract 0 (.ok [255, 216]), .taskSend 0,
    .taskClose 0, .taskRelease 0, .taskDone 0, .runWait]

/-- A fourth call arrives while the queue is full and its context is
cancelled. -/
def fullTrace : List Action := busyTrace ++ [.enqueue jobA, .cancelReq 3]

/-- A job is queued and then the context of its request is cancelled. -/
def requestCancelTrace : List Action :=
  [.runStart, .enqueue jobA, .enqSend 0, .cancelReq 0]

/-- A job is queued and then the context of `Run` is cancelled. -/
def lifetimeCancelTrace : List Action :=
  [.runStart, .enqueue jobA, .enqSend 0, .cancelRun]

/-- The loop takes the queued job, a token, and starts the extraction, which
returns. -/
def admitFromQueueTrace : List Action :=
  [.runRecv, .runToken, .runSpawn, .taskExtract 0 (.ok [255, 216])]

/-- The suffix of `shutdownTrace` after the busy state. -/
def drainTrace : List Action :=
  [.cancelRun, .runCancel, .taskExtract 0 (.ok [255, 216]), .taskSend 0, .taskClose 0,
    .taskRelease 0, .taskDone 0, .runWait]

instance (s : State) (j : Nat) : Decidable (s.queued j) :=
  match h : s.queue with
  | some q => decidable_of_iff (j ∈ q) (by simp [State.queued, h])
  | none => isFalse (by simp [State.queued, h])

/-- The state a trace leads to (the initial state if it is not a run). -/
def after (f : Framer) (as : List Action) : State := (exec (init f) as).getD (init f)

end framer

namespace api

/-- A stand-in for `filepath.Join` on two clean relative names. -/
def demoJoin (dir name : String) : String := dir ++ "/" ++ name

/-- An environment: a fixed clock, no date ever parses, boundary `b`. -/
def demoEnv : Env := { now := 1700000000, ParseTime := fun _ => none, boundary := "b" }

/-- An API built by `NewAPI` from an all-zero configuration. -/
def demoAPI : API :=
  (NewAPI { IsProd := false, ListenPort := 0, ThumbnailWidth := 0, ThumbnailHeight := 0 }
    (framer.NewFramer { MaxProcesses := 0 }) { cfg := { LocalDirectory := "videos" } }).1

end api

/-! ## The invariant is inductive -/

namespace framer

theorem countP_set_add {α : Type} (p : α → Bool) (l : List α) (i : Nat) (a x : α)
    (h : l[i]? = some x) :
    (l.set i a).countP p + (if p x then 1 else 0) = l.countP p + (if p a then 1 else 0) := by
  induction l generalizing i with
  | nil => simp at h
  | cons b t ih =>
    cases i with
    | zero =>
      simp at h
      subst h
      simp [List.countP_cons]
      omega
    | succ i =>
      simp at h
      have := ih i h
      simp [List.countP_cons]
      omega

theorem inv_init (f : Framer) (h : 0 ≤ f.cfg.MaxProcesses) : Inv (init f) := by
  constructor <;>
    simp [init, State.running, State.unfinished, RunPc.token, State.held, State.cap, h]

theorem pending_setJob_ne {s : State} {j k : Nat} {x : JobSt} (hk : k ≠ j) :
    (s.setJob j x).pending k ↔ s.pending k := by
  simp [State.pending, State.setJob, List.getElem?_set, Ne.symm hk]

theorem getElem?_setJob (s : State) (j k : Nat) (x y : JobSt) (hx : s.jobs[j]? = some y) :
    (s.setJob j x).jobs[k]? = if j = k then some x else s.jobs[k]? := by
  have hlt : j < s.jobs.length := by
    rcases Nat.lt_or_ge j s.jobs.length with h | h
    · exact h
    · simp [List.getElem?_eq_none h] at hx
  simp [State.setJob, List.getElem?_set, hlt]

/-- Replacing a job by one at the same stage with a well-formed channel keeps the invariant. -/
theorem inv_setJob_same {s : State} {j : Nat} {x x' : JobSt} (h : Inv s)
    (hx : s.jobs[j]? = some x) (hwf : x'.wf) (henq : x'.enq = x.enq) (htask : x'.task = x.task) :
    Inv (s.setJob j x') := by
  have hcount : ∀ p : JobSt → Bool, p x' = p x → (s.jobs.set j x').countP p = s.jobs.countP p := by
    intro p hp
    have := countP_set_add p s.jobs j x' x hx
    rw [hp] at this
    omega
  have hpend : ∀ k, s.pending k → (s.setJob j x').pending k := by
    intro k ⟨y, hy, hy1, hy2⟩
    by_cases hk : j = k
    · subst hk
      rw [hx] at hy
      cases hy
      exact ⟨x', by simp [getElem?_setJob s j j x' x hx], by rw [henq, hy1], by rw [htask, hy2]⟩
    · exact ⟨y, by simp [getElem?_setJob s j k x' x hx, hk, hy], hy1, hy2⟩
  constructor
  · exact h.cfgOk
  · exact h.noPanic
  · intro k y hy
    rw [getElem?_setJob s j k x' x hx] at hy
    split at hy
    · cases hy; exact hwf
    · exact h.jobs k y hy
  · intro q hq
    have := h.queue q hq
    exact ⟨this.1, fun k hk => hpend k (this.2 k hk)⟩
  · intro k hk
    have := h.held k hk
    exact ⟨hpend k this.1, this.2⟩
  · have := h.tokens
    simp only [State.running, State.setJob] at this ⊢
    rw [hcount]
    · exact this
    · simp [JobSt.holdsToken, htask]
  · exact h.cap
  · have := h.wg
    simp only [State.unfinished, State.setJob] at this ⊢
    rw [hcount]
    · exact this
    · simp [JobSt.live, htask]
  · exact h.idle
  · exact h.drain
  · exact h.returned

theorem getElem?_lt {l : List JobSt} {j : Nat} {x : JobSt} (hx : l[j]? = some x) :
    j < l.length := by
  rcases Nat.lt_or_ge j l.length with h | h
  · exact h
  · simp [List.getElem?_eq_none h] at hx

/-- A step that moves one job that is neither queued nor held afterwards. -/
theorem inv_update {s s' : State} {j : Nat} {x : JobSt} (x' : JobSt) (h : Inv s)
    (hx : s.jobs[j]? = some x) (hjobs : s'.jobs = s.jobs.set j x') (hwf : x'.wf)
    (hf : s'.f = s.f) (hpanic : s'.panicked = false) (hctx : s'.ctxDone = s.ctxDone)
    (hq : s'.queue = s.queue) (hnq : ¬ s.queued j)
    (hheld : ∀ k, s'.held k → s.held k ∧ k ≠ j)
    (htok : s'.tokens + (if x.holdsToken then 1 else 0) + s.run.token
      = s.tokens + (if x'.holdsToken then 1 else 0) + s'.run.token)
    (hcap : s'.tokens ≤ s.tokens)
    (hwg : s'.wg + (if x.live then 1 else 0) = s.wg + (if x'.live then 1 else 0))
    (hidle : s'.run = .idle → s.run = .idle ∧ s'.tokens = 0 ∧ s'.wg = 0)
    (hdrain : s'.run = .drain ∨ s'.run = .returned → s.run = s'.run)
    (hret : s'.run = .returned → s'.wg = 0) : Inv s' := by
  have hlt := getElem?_lt hx
  have hget : ∀ k, s'.jobs[k]? = if j = k then some x' else s.jobs[k]? := by
    intro k
    simp [hjobs, List.getElem?_set, hlt]
  have hpend : ∀ k, k ≠ j → s.pending k → s'.pending k := by
    intro k hk ⟨y, hy, hy1, hy2⟩
    exact ⟨y, by simp [hget, Ne.symm hk, hy], hy1, hy2⟩
  constructor
  · rw [hf]; exact h.cfgOk
  · exact hpanic
  · intro k y hy
    rw [hget] at hy
    split at hy
    · cases hy; exact hwf
    · exact h.jobs k y hy
  · intro q hq'
    rw [hq] at hq'
    have := h.queue q hq'
    refine ⟨this.1, fun k hk => hpend k ?_ (this.2 k hk)⟩
    rintro rfl
    exact hnq (by simp [State.queued, hq', hk])
  · intro k hk
    have hk' := hheld k hk
    have := h.held k hk'.1
    refine ⟨hpend k hk'.2 this.1, ?_⟩
    simpa [State.queued, hq] using this.2
  · have h1 := h.tokens
    have h2 := countP_set_add JobSt.holdsToken s.jobs j x' x hx
    simp only [State.running, hjobs] at h1 ⊢
    omega
  · have := h.cap
    simp only [State.cap, hf] at this ⊢
    omega
  · have h1 := h.wg
    have h2 := countP_set_add JobSt.live s.jobs j x' x hx
    simp only [State.unfinished, hjobs] at h1 ⊢
    omega
  · intro hi
    have := hidle hi
    exact ⟨by rw [hq]; exact (h.idle this.1).1, this.2⟩
  · intro hd
    rw [hctx]
    apply h.drain
    rw [hdrain hd]
    exact hd
  · exact hret

theorem Inv.not_queued {s : State} (h : Inv s) {j : Nat} (hp : ¬ s.pending j) : ¬ s.queued j := by
  intro hq
  unfold State.queued at hq
  split at hq
  · next q hq' => exact hp ((h.queue q hq').2 j hq)
  · exact hq

theorem Inv.not_held {s : State} (h : Inv s) {j : Nat} (hp : ¬ s.pending j) : ¬ s.held j :=
  fun hh => hp (h.held j hh).1

theorem not_pending_of_task {s : State} {j : Nat} {x : JobSt} (hx : s.jobs[j]? = some x)
    (ht : x.task ≠ none) : ¬ s.pending j := by
  rintro ⟨y, hy, -, hy2⟩
  rw [hx] at hy
  cases hy
  exact ht hy2

theorem not_pending_of_enq {s : State} {j : Nat} {x : JobSt} (hx : s.jobs[j]? = some x)
    (ht : x.enq ≠ .sent) : ¬ s.pending j := by
  rintro ⟨y, hy, hy1, -⟩
  rw [hx] at hy
  cases hy
  exact ht hy1

theorem Inv.live_pos {s : State} (h : Inv s) {j : Nat} {x : JobSt} (hx : s.jobs[j]? = some x)
    (hl : x.live = true) : 0 < s.wg := by
  rw [h.wg, State.unfinished, List.countP_pos_iff]
  exact ⟨x, List.getElem?_mem hx, hl⟩

theorem func1_inv {s s' : State} {j : Nat} {x : JobSt} {a : Action} (h : Inv s)
    (hx : s.jobs[j]? = some x) (hs : Run.func1 s j x a = some s') : Inv s' := by
  have hwf := h.jobs j x hx
  have hheld : x.task ≠ none → ∀ k, s.held k → s.held k ∧ k ≠ j := by
    intro ht k hk
    refine ⟨hk, ?_⟩
    rintro rfl
    exact h.not_held (not_pending_of_task hx ht) hk
  have hidle := h.idle
  have hret := h.returned
  unfold Run.func1 at hs
  split at hs
  · next out ht =>
    have hnp := not_pending_of_task hx (by simp [ht])
    simp only [Option.some.injEq] at hs
    subst hs
    refine inv_update { x with task := some (.send _) } h hx rfl ?_ rfl h.noPanic rfl rfl
      (h.not_queued hnp) (hheld (by simp [ht])) ?_ (le_refl _) ?_ ?_ ?_ ?_
    · simpa [JobSt.wf, TaskPc.chanOk, ht] using hwf
    · simp [State.setJob, JobSt.holdsToken, TaskPc.holdsToken, ht]
    · simp [State.setJob, JobSt.live, TaskPc.live, ht]
    · intro hi
      exact ⟨hi, (hidle hi).2⟩
    · simp [State.setJob]
    · simpa [State.setJob] using hret
  · next r ht =>
    have hnp := not_pending_of_task hx (by simp [ht])
    have hc : x.enq = .sent ∧ x.ch.closed = false ∧ x.ch.log = [] ∧ x.ch.buf = [] := by
      simpa [JobSt.wf, TaskPc.chanOk, ht] using hwf
    have hsend : x.ch.send r = .ok { x.ch with buf := [r], log := [.send r] } := by
      simp [Chan.send, hc]
    rw [hsend] at hs
    simp only [Option.some.injEq] at hs
    subst hs
    refine inv_update { x with ch := _, task := some .close } h hx rfl ?_ rfl h.noPanic
      rfl rfl (h.not_queued hnp) (hheld (by simp [ht])) ?_ (le_refl _) ?_ ?_ ?_ ?_
    · simp [JobSt.wf, TaskPc.chanOk, hc]
    · simp [State.setJob, JobSt.holdsToken, TaskPc.holdsToken, ht]
    · simp [State.setJob, JobSt.live, TaskPc.live, ht]
    · intro hi
      exact ⟨hi, (hidle hi).2⟩
    · simp [State.setJob]
    · simpa [State.setJob] using hret
  · next ht =>
    have hnp := not_pending_of_task hx (by simp [ht])
    have hc : x.enq = .sent ∧ x.ch.closed = false ∧ ∃ r, x.ch.log = [.send r] := by
      simpa [JobSt.wf, TaskPc.chanOk, ht] using hwf
    obtain ⟨hc1, hc2, r, hc3⟩ := hc
    have hclose : x.ch.close = .ok { x.ch with closed := true, log := [.send r, .close] } := by
      simp [Chan.close, hc2, hc3]
    rw [hclose] at hs
    simp only [Option.some.injEq] at hs
    subst hs
    refine inv_update { x with ch := _, task := some .release } h hx rfl ?_ rfl h.noPanic
      rfl rfl (h.not_queued hnp) (hheld (by simp [ht])) ?_ (le_refl _) ?_ ?_ ?_ ?_
    · simp [JobSt.wf, TaskPc.chanOk, hc1]
    · simp [State.setJob, JobSt.holdsToken, TaskPc.holdsToken, ht]
    · simp [State.setJob, JobSt.live, TaskPc.live, ht]
    · intro hi
      exact ⟨hi, (hidle hi).2⟩
    · simp [State.setJob]
    · simpa [State.setJob] using hret
  · next ht =>
    have hnp := not_pending_of_task hx (by simp [ht])
    have hc : x.enq = .sent ∧ x.ch.closed = true ∧ ∃ r, x.ch.log = [.send r, .close] := by
      simpa [JobSt.wf, TaskPc.chanOk, ht] using hwf
    split at hs
    · next hpos =>
      simp only [Option.some.injEq] at hs
      subst hs
      refine inv_update { x with task := some .exit } h hx rfl ?_ rfl h.noPanic
        rfl rfl (h.not_queued hnp) (hheld (by simp [ht])) ?_ (Nat.sub_le _ _) ?_ ?_ ?_ ?_
      · simp [JobSt.wf, TaskPc.chanOk, hc]
      · simp [State.setJob, JobSt.holdsToken, TaskPc.holdsToken, ht]
        omega
      · simp [State.setJob, JobSt.live, TaskPc.live, ht]
      · intro hi
        have := hidle hi
        exact ⟨hi, by simp [State.setJob, this], by simp [State.setJob, this]⟩
      · simp [State.setJob]
      · simpa [State.setJob] using hret
    · simp at hs
  · next ht =>
    have hnp := not_pending_of_task hx (by simp [ht])
    have hc : x.enq = .sent ∧ x.ch.closed = true ∧ ∃ r, x.ch.log = [.send r, .close] := by
      simpa [JobSt.wf, TaskPc.chanOk, ht] using hwf
    have hpos : 0 < s.wg := h.live_pos hx (by simp [JobSt.live, TaskPc.live, ht])
    rw [if_pos hpos] at hs
    simp only [Option.some.injEq] at hs
    subst hs
    refine inv_update { x with task := some .done } h hx rfl ?_ rfl h.noPanic
      rfl rfl (h.not_queued hnp) (hheld (by simp [ht])) ?_ (le_refl _) ?_ ?_ ?_ ?_
    · simp [JobSt.wf, TaskPc.chanOk, hc]
    · simp [State.setJob, JobSt.holdsToken, TaskPc.holdsToken, ht]
    · simp [State.setJob, JobSt.live, TaskPc.live, ht]
      omega
    · intro hi
      have := hidle hi
      omega
    · simp [State.setJob]
    · intro hr
      have := hret hr
      omega
  · simp at hs

/-- A step that leaves every job as it is. -/
theorem inv_frame {s s' : State} (h : Inv s) (hjobs : s'.jobs = s.jobs) (hf : s'.f = s.f)
    (hpanic : s'.panicked = false)
    (hqueue : ∀ q, s'.queue = some q → q.length ≤ 1 ∧ ∀ k ∈ q, s.pending k)
    (hheld : ∀ k, s'.held k → s.pending k ∧ ¬ s'.queued k)
    (htok : s'.tokens = s.running + s'.run.token) (hcap : s'.tokens ≤ s.cap)
    (hwg : s'.wg = s.wg)
    (hidle : s'.run = .idle → s'.queue = none ∧ s'.tokens = 0 ∧ s'.wg = 0)
    (hdrain : s'.run = .drain ∨ s'.run = .returned → s'.ctxDone = true)
    (hret : s'.run = .returned → s'.wg = 0) : Inv s' := by
  have hpend : ∀ k, s.pending k → s'.pending k := by
    intro k hk
    simpa [State.pending, hjobs] using hk
  constructor
  · rw [hf]; exact h.cfgOk
  · exact hpanic
  · intro k y hy
    rw [hjobs] at hy
    exact h.jobs k y hy
  · intro q hq
    exact ⟨(hqueue q hq).1, fun k hk => hpend k ((hqueue q hq).2 k hk)⟩
  · intro k hk
    exact ⟨hpend k (hheld k hk).1, (hheld k hk).2⟩
  · simpa [State.running, hjobs] using htok
  · simpa [State.cap, hf] using hcap
  · rw [hwg, h.wg]
    simp [State.unfinished, hjobs]
  · exact hidle
  · exact hdrain
  · exact hret

theorem run_inv {s s' : State} {a : Action} (h : Inv s) (hs : Run s a = some s') :
    Inv s' := by
  have htok := h.tokens
  have hcap := h.cap
  have hdrain := h.drain
  unfold Run at hs
  split at hs
  · next hrun =>
    rw [if_neg (not_lt.mpr h.cfgOk)] at hs
    simp only [Option.some.injEq] at hs
    subst hs
    have hi := h.idle hrun
    refine inv_frame h rfl rfl h.noPanic ?_ ?_ ?_ ?_ ?_ ?_ ?_ ?_
    · simp
    · simp [State.held]
    · simp [hrun, RunPc.token, hi] at htok
      simp [RunPc.token, ← htok]
    · simp
    · simp [hi]
    · simp
    · simp
    · simp
  · next hrun =>
    split at hs
    · next hc =>
      simp only [Option.some.injEq] at hs
      subst hs
      refine inv_frame h rfl rfl h.noPanic ?_ ?_ ?_ ?_ ?_ ?_ ?_ ?_
      · exact h.queue
      · simp [State.held]
      · simpa [hrun, RunPc.token] using htok
      · exact hcap
      · rfl
      · simp
      · simp [hc]
      · simp
    · simp at hs
  · next j hrun =>
    split at hs
    · next hc =>
      simp only [Option.some.injEq] at hs
      subst hs
      refine inv_frame h rfl rfl h.noPanic ?_ ?_ ?_ ?_ ?_ ?_ ?_ ?_
      · exact h.queue
      · simp [State.held]
      · simpa [hrun, RunPc.token] using htok
      · exact hcap
      · rfl
      · simp
      · simp [hc]
      · simp
    · simp at hs
  · next hrun =>
    split at hs
    · next j rest hq =>
      simp only [Option.some.injEq] at hs
      subst hs
      have hq' := h.queue _ hq
      have hrest : rest = [] := by
        have := hq'.1
        simpa using this
      subst hrest
      refine inv_frame h rfl rfl h.noPanic ?_ ?_ ?_ ?_ ?_ ?_ ?_ ?_
      · simp
      · intro k hk
        simp [State.held] at hk
        subst hk
        exact ⟨hq'.2 _ (by simp), by simp [State.queued]⟩
      · simpa [hrun, RunPc.token] using htok
      · exact hcap
      · rfl
      · simp
      · simp
      · simp
    · simp at hs
  · next j hrun =>
    split at hs
    · next hc =>
      simp only [Option.some.injEq] at hs
      subst hs
      have hh := h.held j (Or.inl hrun)
      refine inv_frame h rfl rfl h.noPanic ?_ ?_ ?_ ?_ ?_ ?_ ?_ ?_
      · exact h.queue
      · intro k hk
        simp [State.held] at hk
        subst hk
        exact ⟨hh.1, by simpa [State.queued] using hh.2⟩
      · simp [hrun, RunPc.token] at htok
        simp [RunPc.token, htok]
      · simp only
        omega
      · rfl
      · simp
      · simp
      · simp
    · simp at hs
  · next j hrun =>
    split at hs
    · next x hx =>
      simp only [Option.some.injEq] at hs
      subst hs
      have hh := h.held j (Or.inr hrun)
      obtain ⟨y, hy, hy1, hy2⟩ := hh.1
      rw [hx] at hy
      cases hy
      have hwf := h.jobs j x hx
      refine inv_update { x with task := some .extract } h hx rfl ?_ rfl h.noPanic
        rfl rfl hh.2 ?_ ?_ (le_refl _) ?_ ?_ ?_ ?_
      · simpa [JobSt.wf, TaskPc.chanOk, hy1, hy2] using hwf
      · simp [State.held]
      · simp [State.setJob, JobSt.holdsToken, TaskPc.holdsToken, hy2, hrun, RunPc.token]
      · simp [State.setJob, JobSt.live, TaskPc.live, hy2]
      · simp
      · simp
      · simp
    · simp at hs
  · next hrun =>
    split at hs
    · next hw =>
      simp only [Option.some.injEq] at hs
      subst hs
      refine inv_frame h rfl rfl h.noPanic ?_ ?_ ?_ ?_ ?_ ?_ ?_ ?_
      · exact h.queue
      · simp [State.held]
      · simpa [hrun, RunPc.token] using htok
      · exact hcap
      · rfl
      · simp
      · intro _
        exact hdrain (Or.inl hrun)
      · simp [hw]
    · simp at hs
  · simp at hs

theorem enqueueJob_inv {s s' : State} {j : Nat} {x : JobSt} {a : Action} (h : Inv s)
    (hx : s.jobs[j]? = some x) (hs : EnqueueJob s j x a = some s') : Inv s' := by
  have hwf := h.jobs j x hx
  have hidle := h.idle
  have hret := h.returned
  have hnotask : x.enq ≠ .sent → x.task = none := by
    intro he
    cases ht : x.task with
    | none => rfl
    | some t => simp [JobSt.wf, ht, he] at hwf
  unfold EnqueueJob at hs
  split at hs
  · -- cancelReq
    simp only [Option.some.injEq] at hs
    subst hs
    exact inv_setJob_same h hx (by simpa [JobSt.wf] using hwf) rfl rfl
  · -- enqSend
    split at hs
    · next q he hq =>
      split at hs
      · next hlen =>
        simp only [Option.some.injEq] at hs
        subst hs
        have hq0 : q = [] := by simpa using hlen
        subst hq0
        have ht : x.task = none := hnotask (by simp [he])
        have hnp : ¬ s.pending j := not_pending_of_enq hx (by simp [he])
        have hlt := getElem?_lt hx
        have hget : ∀ k, (s.jobs.set j { x with enq := .sent })[k]?
            = if j = k then some { x with enq := .sent } else s.jobs[k]? := by
          intro k
          simp [List.getElem?_set, hlt]
        have hcount : ∀ p : JobSt → Bool, p { x with enq := .sent } = p x →
            (s.jobs.set j { x with enq := .sent }).countP p = s.jobs.countP p := by
          intro p hp
          have := countP_set_add p s.jobs j { x with enq := .sent } x hx
          rw [hp] at this
          omega
        constructor
        · exact h.cfgOk
        · exact h.noPanic
        · intro k y hy
          simp only [State.setJob] at hy
          rw [hget] at hy
          split at hy
          · cases hy
            simpa [JobSt.wf, ht, he] using hwf
          · exact h.jobs k y hy
        · intro q' hq'
          simp only [Option.some.injEq, List.nil_append] at hq'
          subst hq'
          refine ⟨by simp, ?_⟩
          intro k hk
          simp only [List.mem_singleton] at hk
          subst hk
          exact ⟨{ x with enq := .sent }, by simp [State.setJob, hget], rfl, ht⟩
        · intro k hk
          have hk' : s.held k := hk
          have hkj : k ≠ j := by
            rintro rfl
            exact h.not_held hnp hk'
          obtain ⟨y, hy, hy1, hy2⟩ := (h.held k hk').1
          refine ⟨⟨y, by simp [State.setJob, hget, Ne.symm hkj, hy], hy1, hy2⟩, ?_⟩
          simp [State.queued, hkj]
        · have := h.tokens
          simp only [State.running, State.setJob] at this ⊢
          rw [hcount _ (by simp [JobSt.holdsToken])]
          exact this
        · exact h.cap
        · have := h.wg
          simp only [State.unfinished, State.setJob] at this ⊢
          rw [hcount _ (by simp [JobSt.live])]
          exact this
        · intro hi
          have := (hidle hi).1
          simp [hq] at this
        · exact h.drain
        · exact hret
      · simp at hs
    · simp at hs
  · -- enqCancel
    split at hs
    · next nilq he =>
      split at hs
      · next hctx =>
        have ht : x.task = none := hnotask (by simp [he])
        have hc : x.ch.closed = false ∧ x.ch.log = [] ∧ x.ch.buf = [] := by
          simpa [JobSt.wf, ht, he] using hwf
        have hclose : x.ch.close = .ok { x.ch with closed := true, log := [.close] } := by
          simp [Chan.close, hc]
        rw [hclose] at hs
        simp only [Option.some.injEq] at hs
        subst hs
        have hnp : ¬ s.pending j := not_pending_of_enq hx (by simp [he])
        refine inv_update { x with ch := _, enq := .cancelled } h hx rfl ?_ rfl h.noPanic
          rfl rfl (h.not_queued hnp) ?_ ?_ (le_refl _) ?_ ?_ ?_ ?_
        · simp [JobSt.wf, ht, hc]
        · intro k hk
          refine ⟨hk, ?_⟩
          rintro rfl
          exact h.not_held hnp hk
        · simp [State.setJob, JobSt.holdsToken, ht]
        · simp [State.setJob, JobSt.live, ht]
        · intro hi
          exact ⟨hi, (hidle hi).2⟩
        · simp [State.setJob]
        · simpa [State.setJob] using hret
      · simp at hs
    · simp at hs
  · -- recv
    split at hs
    · simp at hs
    · split at hs
      · next o c hr =>
        simp only [Option.some.injEq] at hs
        subst hs
        refine inv_setJob_same h hx ?_ rfl rfl
        unfold Chan.recv at hr
        split at hr
        · next r rest hb =>
          simp only [Op.ok.injEq, Prod.mk.injEq] at hr
          obtain ⟨-, rfl⟩ := hr
          cases ht : x.task with
          | none =>
            simp only [JobSt.wf, ht] at hwf
            split at hwf <;> simp [hb] at hwf
          | some t =>
            cases t <;> simp_all [JobSt.wf, TaskPc.chanOk]
        · split at hr
          · simp only [Op.ok.injEq, Prod.mk.injEq] at hr
            obtain ⟨-, rfl⟩ := hr
            exact hwf
          · simp at hr
      · simp at hs
  · simp at hs

theorem step_inv {s s' : State} {a : Action} (h : Inv s) (hs : step s a = some s') : Inv s' := by
  unfold step at hs
  rw [h.noPanic] at hs
  simp only [Bool.false_eq_true, ↓reduceIte] at hs
  split at hs
  · -- cancelRun
    simp only [Option.some.injEq] at hs
    subst hs
    exact inv_frame h rfl rfl rfl h.queue h.held h.tokens h.cap rfl h.idle (by simp)
      h.returned
  · -- enqueue
    next job =>
    simp only [Option.some.injEq] at hs
    subst hs
    have hpend : ∀ k, s.pending k → State.pending { s with jobs := s.jobs ++
        [{ job := job, ctxDone := false, enq := .select s.queue.isNone, ch := Chan.make,
           task := none }] } k := by
      rintro k ⟨y, hy, hy1, hy2⟩
      refine ⟨y, ?_, hy1, hy2⟩
      simp only
      rw [List.getElem?_append_left (getElem?_lt hy)]
      exact hy
    constructor
    · exact h.cfgOk
    · rfl
    · intro k y hy
      simp only at hy
      rcases Nat.lt_or_ge k s.jobs.length with hk | hk
      · rw [List.getElem?_append_left hk] at hy
        exact h.jobs k y hy
      · rw [List.getElem?_append_right hk] at hy
        have hm := List.getElem?_mem hy
        simp only [List.mem_singleton] at hm
        subst hm
        simp [JobSt.wf, Chan.make]
    · intro q hq
      exact ⟨(h.queue q hq).1, fun k hk => hpend k ((h.queue q hq).2 k hk)⟩
    · intro k hk
      exact ⟨hpend k (h.held k hk).1, (h.held k hk).2⟩
    · simpa [State.running, List.countP_append, JobSt.holdsToken] using h.tokens
    · exact h.cap
    · simpa [State.unfinished, List.countP_append, JobSt.live] using h.wg
    · exact h.idle
    · exact h.drain
    · exact h.returned
  all_goals
    first
    | (split at hs
       · next x hx => first | exact enqueueJob_inv h hx hs | exact func1_inv h hx hs
       · simp at hs)
    | exact run_inv h hs

theorem exec_inv {s s' : State} (as : List Action) (h : Inv s) (hs : exec s as = some s') :
    Inv s' := by
  induction as generalizing s with
  | nil =>
    simp only [exec, Option.some.injEq] at hs
    subst hs
    exact h
  | cons a as ih =>
    simp only [exec] at hs
    cases hstep : step s a with
    | none => simp [hstep] at hs
    | some t =>
      rw [hstep] at hs
      exact ih (step_inv h hstep) hs

theorem reachable_inv {f : Framer} {s : State} (hf : 0 ≤ f.cfg.MaxProcesses)
    (hr : Reachable f s) : Inv s := by
  obtain ⟨as, has⟩ := hr
  exact exec_inv as (inv_init f hf) has

theorem enqueueJob_jobs {s s' : State} {j : Nat} {x : JobSt} {a : Action}
    (hs : EnqueueJob s j x a = some s') : JobStep s s' j x := by
  unfold EnqueueJob at hs
  unfold JobStep
  split at hs <;> (try split at hs) <;> (try split at hs) <;> (try split at hs) <;>
    simp at hs <;> subst hs <;> refine ⟨rfl, rfl, ?_⟩ <;>
    first
    | exact Or.inl rfl
    | exact Or.inr ⟨_, rfl, by simp_all, by simp_all⟩

theorem func1_jobs {s s' : State} {j : Nat} {x : JobSt} {a : Action}
    (hs : Run.func1 s j x a = some s') : JobStep s s' j x := by
  unfold Run.func1 at hs
  unfold JobStep
  split at hs <;> (try split at hs) <;>
    simp at hs <;> subst hs <;> refine ⟨rfl, rfl, ?_⟩ <;>
    first
    | exact Or.inl rfl
    | exact Or.inr ⟨_, rfl, by simp_all, by simp_all⟩

theorem run_jobs {s s' : State} {a : Action} (hs : Run s a = some s') :
    (s.run = .drain ∨ s.run = .returned → s'.run = .drain ∨ s'.run = .returned) ∧
    s'.f = s.f ∧
    (s'.jobs = s.jobs ∨ ∃ j x x', s.run = .spawn j ∧ s.jobs[j]? = some x
      ∧ s'.jobs = s.jobs.set j x' ∧ x'.enq = x.enq) := by
  unfold Run at hs
  split at hs <;> (try split at hs) <;> simp at hs <;> subst hs <;>
    simp_all [State.setJob, State.panic]
  exact Or.inr ⟨_, rfl, rfl⟩

theorem jobsMono_same {s s' : State} (hj : s'.jobs = s.jobs) : JobsMono s s' := by
  unfold JobsMono
  rw [hj]
  exact ⟨fun k x hx => ⟨x, hx, fun _ _ => rfl, fun h => Or.inl h⟩,
    fun k x' hx' hn => by simp [hn] at hx'⟩

theorem jobsMono_set {s s' : State} {j : Nat} {y y' : JobSt} (hy : s.jobs[j]? = some y)
    (hj : s'.jobs = s.jobs.set j y')
    (h1 : y.enq ≠ .select true → y.enq ≠ .select false → y'.enq = y.enq)
    (h2 : y'.task ≠ none → y.task ≠ none ∨ s.run = .spawn j) : JobsMono s s' := by
  have hlt := getElem?_lt hy
  have hget : ∀ k, s'.jobs[k]? = if j = k then some y' else s.jobs[k]? := by
    intro k
    simp [hj, List.getElem?_set, hlt]
  constructor
  · intro k x hx
    rw [hget]
    by_cases hk : j = k
    · subst hk
      rw [hy] at hx
      cases hx
      exact ⟨y', by simp, h1, h2⟩
    · exact ⟨x, by simp [hk, hx], fun _ _ => rfl, fun h => Or.inl h⟩
  · intro k x' hx' hnone
    rw [hget] at hx'
    by_cases hk : j = k
    · subst hk
      rw [hy] at hnone
      cases hnone
    · simp [hk, hnone] at hx'

/-- A step never brings `Run` back into its loop and moves the jobs forward. -/
theorem step_mono {s s' : State} {a : Action} (hs : step s a = some s') :
    (s.run = .drain ∨ s.run = .returned → s'.run = .drain ∨ s'.run = .returned) ∧
    s'.f = s.f ∧ JobsMono s s' := by
  unfold step at hs
  split at hs
  · simp at hs
  · split at hs
    · simp only [Option.some.injEq] at hs
      subst hs
      exact ⟨id, rfl, jobsMono_same rfl⟩
    · next job =>
      simp only [Option.some.injEq] at hs
      subst hs
      refine ⟨id, rfl, ?_, ?_⟩
      · intro k x hx
        refine ⟨x, ?_, fun _ _ => rfl, fun h => Or.inl h⟩
        simp only
        rw [List.getElem?_append_left (getElem?_lt hx)]
        exact hx
      · intro k x' hx' hn
        simp only at hx'
        have hk : s.jobs.length ≤ k := by
          by_contra hlt
          have := List.getElem?_eq_getElem (Nat.lt_of_not_le hlt)
          simp [this] at hn
        rw [List.getElem?_append_right hk] at hx'
        have hm := List.getElem?_mem hx'
        simp only [List.mem_singleton] at hm
        subst hm
        rfl
    all_goals
      first
      | (split at hs
         · next x hx =>
           obtain ⟨j, hx, hrun, hf, hj | ⟨x', hj, h1, h2⟩⟩ :
               ∃ j, s.jobs[j]? = some x ∧ JobStep s s' j x :=
             ⟨_, hx, by first | exact enqueueJob_jobs hs | exact func1_jobs hs⟩
           · exact ⟨by rw [hrun]; exact id, hf, jobsMono_same hj⟩
           · exact ⟨by rw [hrun]; exact id, hf, jobsMono_set hx hj h1 (fun h => Or.inl (h2 h))⟩
         · simp at hs)
      | (obtain ⟨hrun, hf, hj | ⟨j, x, x', hsp, hx, hj, he⟩⟩ := run_jobs hs
         · exact ⟨hrun, hf, jobsMono_same hj⟩
         · exact ⟨hrun, hf, jobsMono_set hx hj (fun _ _ => he) (fun _ => Or.inr hsp)⟩)

theorem exec_append {s t u : State} {as bs : List Action} (h1 : exec s as = some t)
    (h2 : exec t bs = some u) : exec s (as ++ bs) = some u := by
  induction as generalizing s with
  | nil =>
    simp only [exec, Option.some.injEq] at h1
    subst h1
    simpa using h2
  | cons a as ih =>
    simp only [exec, List.cons_append] at h1 ⊢
    cases hstep : step s a with
    | none => simp [hstep] at h1
    | some v =>
      rw [hstep] at h1
      simp only [Option.some_bind] at h1 ⊢
      exact ih h1

theorem reachable_trans {f : Framer} {s t : State} (hs : Reachable f s)
    (ht : ReachableFrom s t) : Reachable f t := by
  obtain ⟨as, has⟩ := hs
  obtain ⟨bs, hbs⟩ := ht
  exact ⟨as ++ bs, exec_append has hbs⟩

/-- A job stays in place, and the case its `EnqueueJob` returned through
stays the same. -/
theorem exec_job {s t : State} (as : List Action) (hs : exec s as = some t) (j : Nat)
    (x : JobSt) (hx : s.jobs[j]? = some x) :
    ∃ y, t.jobs[j]? = some y ∧ (x.enq = .cancelled → y.enq = .cancelled)
      ∧ (x.enq = .sent → y.enq = .sent) := by
  induction as generalizing s x with
  | nil =>
    simp only [exec, Option.some.injEq] at hs
    subst hs
    exact ⟨x, hx, id, id⟩
  | cons a as ih =>
    simp only [exec] at hs
    cases hstep : step s a with
    | none => simp [hstep] at hs
    | some u =>
      rw [hstep] at hs
      obtain ⟨x', hx', hc', -⟩ := (step_mono hstep).2.2.1 j x hx
      obtain ⟨y, hy, h1, h2⟩ := ih hs x' hx'
      refine ⟨y, hy, fun h => h1 ?_, fun h => h2 ?_⟩
      · rw [hc' (by simp [h]) (by simp [h]), h]
      · rw [hc' (by simp [h]) (by simp [h]), h]

/-- Once `Run` has left its loop it stays out of it and no goroutine is started. -/
theorem exec_after_exit {s t : State} (as : List Action) (hs : exec s as = some t)
    (hd : s.run = .drain ∨ s.run = .returned) :
    (t.run = .drain ∨ t.run = .returned) ∧
    ∀ (j : Nat) (y : JobSt), t.jobs[j]? = some y → y.task ≠ none →
      ∃ x, s.jobs[j]? = some x ∧ x.task ≠ none := by
  induction as generalizing s with
  | nil =>
    simp only [exec, Option.some.injEq] at hs
    subst hs
    exact ⟨hd, fun j y hy ht => ⟨y, hy, ht⟩⟩
  | cons a as ih =>
    simp only [exec] at hs
    cases hstep : step s a with
    | none => simp [hstep] at hs
    | some u =>
      rw [hstep] at hs
      obtain ⟨hrun, -, hold, hnew⟩ := step_mono hstep
      obtain ⟨htrun, htask⟩ := ih hs (hrun hd)
      refine ⟨htrun, ?_⟩
      intro j y hy ht
      obtain ⟨xu, hxu, hxut⟩ := htask j y hy ht
      cases hsj : s.jobs[j]? with
      | none => exact absurd (hnew j xu hxu hsj) hxut
      | some x =>
        obtain ⟨x', hx', -, hx't⟩ := hold j x hsj
        rw [hxu] at hx'
        cases hx'
        rcases hx't hxut with h | h
        · exact ⟨x, rfl, h⟩
        · rcases hd with hd | hd <;> simp [hd] at h

theorem exec_f {s t : State} (as : List Action) (hs : exec s as = some t) : t.f = s.f := by
  induction as generalizing s with
  | nil =>
    simp only [exec, Option.some.injEq] at hs
    subst hs
    rfl
  | cons a as ih =>
    simp only [exec] at hs
    cases hstep : step s a with
    | none => simp [hstep] at hs
    | some u =>
      rw [hstep] at hs
      rw [ih hs, (step_mono hstep).2.1]

theorem reachable_f {f : Framer} {s : State} (hr : Reachable f s) : s.f = f := by
  obtain ⟨as, has⟩ := hr
  exact exec_f as has

theorem two_le_countP {α : Type} (p : α → Bool) (l : List α) (i j : Nat) (xi xj : α)
    (hij : i < j) (hi : l[i]? = some xi) (hj : l[j]? = some xj) (pi : p xi = true)
    (pj : p xj = true) : 2 ≤ l.countP p := by
  induction l generalizing i j with
  | nil => simp at hi
  | cons a t ih =>
    cases j with
    | zero => omega
    | succ j =>
      simp only [List.getElem?_cons_succ] at hj
      cases i with
      | zero =>
        simp only [List.getElem?_cons_zero, Option.some.injEq] at hi
        subst hi
        have : 0 < t.countP p := List.countP_pos_iff.mpr ⟨xj, List.getElem?_mem hj, pj⟩
        simp only [List.countP_cons, pi, ↓reduceIte]
        omega
      | succ i =>
        simp only [List.getElem?_cons_succ] at hi
        have := ih i j (by omega) hi hj
        simp only [List.countP_cons]
        omega

/-- After `Run` has left its loop, a job that was sent to the queue and has
no goroutine keeps an open channel on which nothing was ever sent. -/
theorem stranded_stays_open {f : Framer} {s t : State} (hf : 0 ≤ f.cfg.MaxProcesses)
    (hr : Reachable f s) (hd : s.run = .drain ∨ s.run = .returned) (ht : ReachableFrom s t)
    (j : Nat) (x : JobSt) (hx : s.jobs[j]? = some x) (he : x.enq = .sent) (hn : x.task = none) :
    ∃ y, t.jobs[j]? = some y ∧ y.task = none ∧ y.ch.closed = false ∧ y.ch.log = [] := by
  obtain ⟨as, has⟩ := ht
  obtain ⟨y, hy, -, hsent⟩ := exec_job as has j x hx
  have hyn : y.task = none := by
    by_contra hne
    obtain ⟨x', hx', hx't⟩ := (exec_after_exit as has hd).2 j y hy hne
    rw [hx] at hx'
    cases hx'
    exact hx't hn
  have hwf := (reachable_inv hf (reachable_trans hr ⟨as, has⟩)).jobs j y hy
  simp only [JobSt.wf, hyn, hsent he] at hwf
  exact ⟨y, hy, hyn, by simpa using hwf.1, by simpa using hwf.2.1⟩

end framer

/-! ## Numerals -/

namespace framer

theorem digitChar_eq_decimalDigit (d : Nat) (h : d < 10) : Nat.digitChar d = decimalDigit d := by
  interval_cases d <;> rfl

theorem toDigitsCore_eq_decimalNat (fuel n : Nat) (ds : List Char) :
    Nat.toDigitsCore 10 fuel n ds = decimalNat fuel n ++ ds := by
  induction fuel generalizing n ds with
  | zero => rfl
  | succ fuel ih =>
    simp only [Nat.toDigitsCore, decimalNat]
    by_cases h : n < 10
    · have h0 : n / 10 = 0 := by omega
      have hm : n % 10 = n := by omega
      simp [h, h0, hm, digitChar_eq_decimalDigit n h]
    · have h0 : n / 10 ≠ 0 := by omega
      simp [h, h0, ih, digitChar_eq_decimalDigit (n % 10) (by omega)]

/-- The verb `%d` writes the decimal numeral. -/
theorem fmtD_eq_decimal (i : Int) : fmtD i = decimal i := by
  cases i with
  | ofNat n =>
    show Nat.repr n = String.mk (decimalNat (n + 1) n)
    simp [Nat.repr, Nat.toDigits, List.asString, toDigitsCore_eq_decimalNat]
  | negSucc n =>
    show "-" ++ Nat.repr (n + 1) = "-" ++ String.mk (decimalNat (n + 2) (n + 1))
    simp [Nat.repr, Nat.toDigits, List.asString, toDigitsCore_eq_decimalNat]

end framer

open framer api

/-! ## The claims -/

/-- Claim C1.  In every state that an interleaving of one `Run` and any number
of `EnqueueJob` calls reaches on a framer with `MaxProcesses = N`, the number
of extraction goroutines that started and have not yet released their token
is at most `N`.  The pool `f.tokens` holds exactly one token for each such
goroutine, plus the one `Run` has sent for the goroutine it is about to start,
so that a goroutine runs `extractFrame` only after its token was put into the
pool, and the pool never holds more than `N`.  With `N = 1` two different jobs
never hold a token at the same time. -/
theorem run_bounds_running_tasks (f : Framer) (N : Nat) (hf : f.cfg.MaxProcesses = N)
    (s : State) (hr : Reachable f s) :
    s.running ≤ N ∧ s.tokens = s.running + s.run.token ∧ s.tokens ≤ N ∧
    (N = 1 → ∀ (i j : Nat) (xi xj : JobSt), s.jobs[i]? = some xi → s.jobs[j]? = some xj →
      xi.holdsToken = true → xj.holdsToken = true → i = j) := by
  have h := reachable_inv (by rw [hf]; exact Int.ofNat_nonneg N) hr
  have hcap : s.cap = N := by simp [State.cap, reachable_f hr, hf]
  have h1 := h.tokens
  have h2 := h.cap
  rw [hcap] at h2
  refine ⟨by omega, h1, h2, ?_⟩
  intro hN i j xi xj hi hj pi pj
  by_contra hne
  have : 2 ≤ s.running := by
    rcases Nat.lt_or_gt_of_ne hne with hlt | hlt
    · exact two_le_countP _ _ i j xi xj hlt hi hj pi pj
    · exact two_le_countP _ _ j i xj xi hlt hj hi pj pi
  omega

/-- Claim C2.  In every reachable state no goroutine has panicked (no send on
a closed channel, no second close), and the record of the sends and closes
performed on the result channel of any job is one of: nothing yet, one
`Result`, one `Result` followed by the close, the close alone.  So a channel
never takes a second `Result`, never takes a `Result` after its close, is
never closed twice, and a closed channel took exactly one `Result` before the
close or none at all.  Whether an open channel is ever closed is not part of
this statement. -/
theorem result_channel_single_shot (f : Framer) (hf : 0 ≤ f.cfg.MaxProcesses) (s : State)
    (hr : Reachable f s) (j : Nat) (x : JobSt) (hx : s.jobs[j]? = some x) :
    s.panicked = false ∧
    (x.ch.log = [] ∨ (∃ r, x.ch.log = [.send r]) ∨ (∃ r, x.ch.log = [.send r, .close])
      ∨ x.ch.log = [.close]) ∧
    (x.ch.closed = true ↔ ChanEvent.close ∈ x.ch.log) := by
  have h := reachable_inv hf hr
  refine ⟨h.noPanic, ?_⟩
  have hwf := h.jobs j x hx
  unfold JobSt.wf at hwf
  split at hwf
  · split at hwf <;> simp [hwf]
  · next t ht =>
    cases t <;> simp only [TaskPc.chanOk] at hwf <;> obtain ⟨-, hc, hl⟩ := hwf
    · simp [hc, hl]
    · simp [hc, hl]
    all_goals
      obtain ⟨r, hl⟩ := hl
      simp [hc, hl]

/-- Claim C5.  In every reachable state in which `Run` has returned, the
context of `Run` is cancelled, the token pool is empty, no goroutine `Run`
started is unfinished, and every job that was given a goroutine has had its
`Result` sent and then its channel closed. -/
theorem run_returns_drained (f : Framer) (hf : 0 ≤ f.cfg.MaxProcesses) (s : State)
    (hr : Reachable f s) (hret : s.run = .returned) :
    s.ctxDone = true ∧ s.tokens = 0 ∧ s.unfinished = 0 ∧
    ∀ (j : Nat) (x : JobSt), s.jobs[j]? = some x → x.task ≠ none →
      x.task = some .done ∧ x.ch.closed = true ∧ ∃ r, x.ch.log = [.send r, .close] := by
  have h := reachable_inv hf hr
  have hw := h.returned hret
  have hu : s.unfinished = 0 := by rw [← h.wg]; exact hw
  have hdone : ∀ (j : Nat) (x : JobSt), s.jobs[j]? = some x → x.task ≠ none →
      x.task = some .done := by
    intro j x hx ht
    have hnl : x.live = false := by
      have := List.countP_eq_zero.mp hu x (List.getElem?_mem hx)
      simpa using this
    cases hxt : x.task with
    | none => exact absurd hxt ht
    | some t => cases t <;> simp [JobSt.live, TaskPc.live, hxt] at hnl ⊢
  refine ⟨h.drain (Or.inr hret), ?_, hu, ?_⟩
  · have hrun : s.running = 0 := by
      rw [State.running, List.countP_eq_zero]
      intro x hxm
      obtain ⟨j, hj⟩ := List.mem_iff_getElem?.mp hxm
      cases hxt : x.task with
      | none => simp [JobSt.holdsToken, hxt]
      | some t =>
        have := hdone j x hj (by simp [hxt])
        simp [JobSt.holdsToken, this, TaskPc.holdsToken]
    rw [h.tokens, hrun, hret]
    rfl
  · intro j x hx ht
    have hd := hdone j x hx ht
    have hwf := h.jobs j x hx
    simp only [JobSt.wf, hd, TaskPc.chanOk] at hwf
    exact ⟨hd, hwf.2⟩

/-- Claim C4.  Take a call of `EnqueueJob` that stands in its `select` in a
reachable state where the queue has no free slot (it is full, or `Run` has
not made it yet) and the context of the call is cancelled.  Then the send
case cannot proceed; the cancel case can, and in the state it leads to and in
every state reachable from there the job's channel is closed, holds no value
and never took one, the job is neither in the queue nor held by `Run`, and no
goroutine, hence no `extractFrame`, exists for the job. -/
theorem enqueue_cancelled_when_full (f : Framer) (hf : 0 ≤ f.cfg.MaxProcesses) (s : State)
    (hr : Reachable f s) (j : Nat) (x : JobSt) (nilq : Bool) (hx : s.jobs[j]? = some x)
    (hsel : x.enq = .select nilq) (hfull : ∀ q, s.queue = some q → 1 ≤ q.length)
    (hctx : x.ctxDone = true) :
    step s (.enqSend j) = none ∧
    ∃ s', step s (.enqCancel j) = some s' ∧
      ∀ t, ReachableFrom s' t →
        ∃ y, t.jobs[j]? = some y ∧ y.enq = .cancelled ∧ y.ch.closed = true ∧ y.ch.buf = []
          ∧ y.ch.log = [.close] ∧ y.task = none ∧ ¬ t.queued j ∧ ¬ t.held j := by
  have h := reachable_inv hf hr
  have hwf := h.jobs j x hx
  have ht : x.task = none := by
    cases hxt : x.task with
    | none => rfl
    | some t => simp [JobSt.wf, hxt, hsel] at hwf
  have hc : x.ch.closed = false ∧ x.ch.log = [] ∧ x.ch.buf = [] := by
    simpa [JobSt.wf, ht, hsel] using hwf
  constructor
  · simp only [step, h.noPanic, Bool.false_eq_true, ↓reduceIte, hx, EnqueueJob]
    split
    · next q he hq =>
      have := hfull q hq
      rw [if_neg (by omega)]
    · rfl
  · obtain ⟨x', hx'⟩ : ∃ x' : JobSt, x' =
        { x with ch := { x.ch with closed := true, log := [.close] }, enq := .cancelled } :=
      ⟨_, rfl⟩
    have hstep : step s (.enqCancel j) = some (s.setJob j x') := by
      simp [step, h.noPanic, hx, EnqueueJob, hsel, hctx, Chan.close, hc, hx']
    refine ⟨_, hstep, ?_⟩
    intro t hreach
    have hs' : Reachable f (s.setJob j x') :=
      reachable_trans hr ⟨[.enqCancel j], by simp [exec, hstep]⟩
    have hlt := framer.getElem?_lt hx
    obtain ⟨as, has⟩ := hreach
    have hxj : (s.setJob j x').jobs[j]? = some x' := by
      simp [State.setJob, List.getElem?_set, hlt]
    obtain ⟨y, hy, hcan, -⟩ := exec_job as has j x' hxj
    have hyc : y.enq = .cancelled := hcan (by rw [hx'])
    have ht' := reachable_inv hf (reachable_trans hs' ⟨as, has⟩)
    have hwf' := ht'.jobs j y hy
    have hyt : y.task = none := by
      cases hxt : y.task with
      | none => rfl
      | some t => simp [JobSt.wf, hxt, hyc] at hwf'
    have hnp : ¬ t.pending j := not_pending_of_enq hy (by simp [hyc])
    simp only [JobSt.wf, hyt, hyc, ↓reduceIte] at hwf'
    exact ⟨y, hy, hyc, hwf'.1, hwf'.2.2, hwf'.2.1, hyt, ht'.not_queued hnp, ht'.not_held hnp⟩

/-- Claim C6 as amended.  Once the loop of `Run` has taken a `<-ctx.Done()`
case (`Run` is draining or has returned), `Run` stays out of the loop, every
goroutine of a later state belongs to a job that already had one, so no
further job is admitted, and a job that was still in the queue is never handed
to `extractFrame`. -/
theorem no_admission_after_loop_exit (f : Framer) (hf : 0 ≤ f.cfg.MaxProcesses) (s t : State)
    (hr : Reachable f s) (hd : s.run = .drain ∨ s.run = .returned) (ht : ReachableFrom s t) :
    (t.run = .drain ∨ t.run = .returned) ∧
    (∀ (j : Nat) (y : JobSt), t.jobs[j]? = some y → y.task ≠ none →
      ∃ x, s.jobs[j]? = some x ∧ x.task ≠ none) ∧
    (∀ j : Nat, s.queued j → ∃ y, t.jobs[j]? = some y ∧ y.task = none) := by
  obtain ⟨as, has⟩ := ht
  have hexit := exec_after_exit as has hd
  refine ⟨hexit.1, hexit.2, ?_⟩
  intro j hq
  have h := reachable_inv hf hr
  have hp : s.pending j := by
    by_contra hnp
    exact h.not_queued hnp hq
  obtain ⟨x, hx, he, hn⟩ := hp
  obtain ⟨y, hy, hyn, -⟩ := stranded_stays_open hf hr hd ⟨as, has⟩ j x hx he hn
  exact ⟨y, hy, hyn⟩

/-- Claim C1 at the busy state of a framer with `MaxProcesses = 1`: one
goroutine holds the one token while a second job waits for it. -/
theorem run_bounds_running_tasks_witness :
    (after demoFramer busyTrace).running = 1 ∧
    ((after demoFramer busyTrace).running ≤ 1 ∧
     (after demoFramer busyTrace).tokens
       = (after demoFramer busyTrace).running + (after demoFramer busyTrace).run.token ∧
     (after demoFramer busyTrace).tokens ≤ 1 ∧
     ((1 : Nat) = 1 → ∀ (i j : Nat) (xi xj : JobSt),
        (after demoFramer busyTrace).jobs[i]? = some xi →
        (after demoFramer busyTrace).jobs[j]? = some xj →
        xi.holdsToken = true → xj.holdsToken = true → i = j)) :=
  ⟨by decide, run_bounds_running_tasks demoFramer 1 (by decide) (after demoFramer busyTrace)
    ⟨busyTrace, by decide⟩⟩

/-- Claim C2 at job 0 of the shutdown run, whose channel took one `Result`
and was then closed. -/
theorem result_channel_single_shot_witness :
    (after demoFramer shutdownTrace).jobs[0]?.map (fun x => x.ch.log)
      = some [.send { Data := [255, 216], Err := none }, .close] ∧
    ∃ x, (after demoFramer shutdownTrace).jobs[0]? = some x ∧
      ((after demoFramer shutdownTrace).panicked = false ∧
      (x.ch.log = [] ∨ (∃ r, x.ch.log = [.send r]) ∨ (∃ r, x.ch.log = [.send r, .close])
        ∨ x.ch.log = [.close]) ∧
      (x.ch.closed = true ↔ ChanEvent.close ∈ x.ch.log)) :=
  ⟨by decide, _, rfl, result_channel_single_shot demoFramer (by decide)
    (after demoFramer shutdownTrace) ⟨shutdownTrace, by decide⟩ 0 _ rfl⟩

/-- Claim C5 at the end of the shutdown run. -/
theorem run_returns_drained_witness :
    (after demoFramer shutdownTrace).run = .returned ∧
    (after demoFramer shutdownTrace).jobs.map (fun x => x.task) = [some .done, none, none] ∧
    (after demoFramer shutdownTrace).ctxDone = true ∧
    (after demoFramer shutdownTrace).tokens = 0 ∧
    (after demoFramer shutdownTrace).unfinished = 0 :=
  ⟨by decide, by decide,
    (run_returns_drained demoFramer (by decide) (after demoFramer shutdownTrace)
      ⟨shutdownTrace, by decide⟩ (by decide)).1,
    (run_returns_drained demoFramer (by decide) (after demoFramer shutdownTrace)
      ⟨shutdownTrace, by decide⟩ (by decide)).2.1,
    (run_returns_drained demoFramer (by decide) (after demoFramer shutdownTrace)
      ⟨shutdownTrace, by decide⟩ (by decide)).2.2.1⟩

/-- Claim C4 at the fourth call of the full run: the queue holds job 2 and the
context of the call is cancelled. -/
theorem enqueue_cancelled_when_full_witness :
    (after demoFramer fullTrace).queue = some [2] ∧
    (after demoFramer fullTrace).jobs[3]?.map (fun x => (x.enq, x.ctxDone))
      = some (.select false, true) ∧
    step (after demoFramer fullTrace) (.enqSend 3) = none ∧
    ∃ s', step (after demoFramer fullTrace) (.enqCancel 3) = some s' ∧
      ∃ y, s'.jobs[3]? = some y ∧ y.enq = .cancelled ∧ y.ch.closed = true ∧ y.ch.buf = []
        ∧ y.ch.log = [.close] ∧ y.task = none ∧ ¬ s'.queued 3 ∧ ¬ s'.held 3 := by
  obtain ⟨h1, s', h2, h3⟩ := enqueue_cancelled_when_full demoFramer (by decide)
    (after demoFramer fullTrace) ⟨fullTrace, by decide⟩ 3
    { job := jobA, ctxDone := true, enq := .select false, ch := Chan.make, task := none } false
    (by decide) rfl (by decide) rfl
  exact ⟨by decide, by decide, h1, s', h2, h3 s' ⟨[], rfl⟩⟩

/-- Claim C6 as amended, from the moment the loop of the shutdown run takes the
cancel case to the return of `Run`: job 2, left in the queue, has no
goroutine. -/
theorem no_admission_after_loop_exit_witness :
    (after demoFramer (busyTrace ++ [.cancelRun, .runCancel])).run = .drain ∧
    (after demoFramer (busyTrace ++ [.cancelRun, .runCancel])).queue = some [2] ∧
    ((after demoFramer shutdownTrace).run = .drain
      ∨ (after demoFramer shutdownTrace).run = .returned) ∧
    ∃ y, (after demoFramer shutdownTrace).jobs[2]? = some y ∧ y.task = none := by
  have h := no_admission_after_loop_exit demoFramer (by decide)
    (after demoFramer (busyTrace ++ [.cancelRun, .runCancel])) (after demoFramer shutdownTrace)
    ⟨busyTrace ++ [.cancelRun, .runCancel], by decide⟩ (Or.inl (by decide))
    ⟨[.taskExtract 0 (.ok [255, 216]), .taskSend 0, .taskClose 0, .taskRelease 0, .taskDone 0,
      .runWait], by decide⟩
  exact ⟨by decide, by decide, h.1, h.2.2 2 (by decide)⟩

/-- Claim C6 fails as stated.  First run: job 0 is in the queue when the
context of its request is cancelled, and `Run` still takes it, gives it a
token and runs `extractFrame` for it.  Second run: job 0 is in the queue and
no job has been admitted when the context of `Run` is cancelled, and the two
`select`s of `Run`, each with two ready cases, still admit it. -/
theorem queued_job_extracted_after_cancel :
    (∃ s t x y, Reachable demoFramer s ∧ s.queue = some [0] ∧ s.jobs[0]? = some x
      ∧ x.ctxDone = true ∧ ReachableFrom s t ∧ t.jobs[0]? = some y
      ∧ y.task = some (.send { Data := [255, 216], Err := none })) ∧
    (∃ s t y, Reachable demoFramer s ∧ s.queue = some [0] ∧ s.ctxDone = true
      ∧ (∀ x ∈ s.jobs, x.task = none)
      ∧ ReachableFrom s t ∧ t.jobs[0]? = some y
      ∧ y.task = some (.send { Data := [255, 216], Err := none })) :=
  ⟨⟨after demoFramer requestCancelTrace,
      after demoFramer (requestCancelTrace ++ admitFromQueueTrace), _, _,
      ⟨requestCancelTrace, by decide⟩, by decide, rfl, by decide,
      ⟨admitFromQueueTrace, by decide⟩, rfl, by decide⟩,
   ⟨after demoFramer lifetimeCancelTrace,
      after demoFramer (lifetimeCancelTrace ++ admitFromQueueTrace), _,
      ⟨lifetimeCancelTrace, by decide⟩, by decide, by decide, by decide,
      ⟨admitFromQueueTrace, by decide⟩, rfl, by decide⟩⟩

/-- Claim C3 at the shutdown run.  When the context of `Run` is cancelled job 1
was taken from the queue and waits for a token and job 2 sits in the queue.
`Run` then returns with every goroutine finished; the channel of job 0 is
closed, the channels `EnqueueJob` returned for jobs 1 and 2 are open and
empty, and they stay so in every state reachable afterwards. -/
theorem shutdown_leaves_channels_open :
    Reachable demoFramer (after demoFramer busyTrace) ∧
    (after demoFramer busyTrace).run = .waitToken 1 ∧
    (after demoFramer busyTrace).queue = some [2] ∧
    ReachableFrom (after demoFramer busyTrace) (after demoFramer shutdownTrace) ∧
    (after demoFramer shutdownTrace).run = .returned ∧
    (after demoFramer shutdownTrace).unfinished = 0 ∧
    (after demoFramer shutdownTrace).jobs.map (fun x => (x.enq, x.ch.closed, x.ch.log.length))
      = [(.sent, true, 2), (.sent, false, 0), (.sent, false, 0)] ∧
    ∀ t, ReachableFrom (after demoFramer shutdownTrace) t →
      (∃ y, t.jobs[1]? = some y ∧ y.ch.closed = false ∧ y.ch.log = []) ∧
      (∃ y, t.jobs[2]? = some y ∧ y.ch.closed = false ∧ y.ch.log = []) := by
  have hr : Reachable demoFramer (after demoFramer shutdownTrace) := ⟨shutdownTrace, by decide⟩
  refine ⟨⟨busyTrace, by decide⟩, by decide, by decide, ⟨drainTrace, by decide⟩, by decide,
    by decide, by decide, ?_⟩
  intro t ht
  obtain ⟨y1, h1, -, h1c, h1l⟩ := stranded_stays_open (by decide) hr (Or.inr (by decide)) ht 1
    { job := jobB, ctxDone := false, enq := .sent, ch := Chan.make, task := none }
    (by decide) rfl rfl
  obtain ⟨y2, h2, -, h2c, h2l⟩ := stranded_stays_open (by decide) hr (Or.inr (by decide)) ht 2
    { job := jobC, ctxDone := false, enq := .sent, ch := Chan.make, task := none }
    (by decide) rfl rfl
  exact ⟨⟨y1, h1, h1c, h1l⟩, ⟨y2, h2, h2c, h2l⟩⟩

/-- Claim C7 as amended.  When the index parses, `handleGetFrameRequest`
submits the job and answers what it receives from the result channel as
follows: closed without a value, 500; a `Result` with an error, 500; a
`Result` without error and with no data, 400; a `Result` without error and
with data, the reply of `http.ServeContent` over the data with `Content-Type`
set to `image/jpeg`, which is 200 with that type and the whole data as body
when the request has no Range, If-Match, If-None-Match, If-Modified-Since and
If-Unmodified-Since header. -/
theorem handleGetFrameRequest_response (join : String → String → String) (env : Env)
    (a : API) (r : Request) (width height : Int) (thumbnail : Bool) (i : Int)
    (hidx : Atoi r.index = some i) :
    (handleGetFrameRequest join env a r width height thumbnail).job
      = some { filepath := storage.GetPath join a.sto r.filename, index := i, width := width,
               height := height, thumbnail := thumbnail } ∧
    ((handleGetFrameRequest join env a r width height thumbnail).response
      (.received none)).status = 500 ∧
    (∀ res : framer.Result, res.Err ≠ none →
      ((handleGetFrameRequest join env a r width height thumbnail).response
        (.received (some res))).status = 500) ∧
    (∀ res : framer.Result, res.Err = none → res.Data.length = 0 →
      ((handleGetFrameRequest join env a r width height thumbnail).response
        (.received (some res))).status = 400) ∧
    (∀ res : framer.Result, res.Err = none → res.Data.length ≠ 0 →
      (handleGetFrameRequest join env a r width height thumbnail).response
          (.received (some res))
        = ServeContent env r.header "image/jpeg" res.Data) ∧
    (r.header.Range = "" → r.header.IfMatch = "" → r.header.IfNoneMatch = "" →
      r.header.IfModifiedSince = "" → r.header.IfUnmodifiedSince = "" →
      ∀ res : framer.Result, res.Err = none → res.Data.length ≠ 0 →
        (handleGetFrameRequest join env a r width height thumbnail).response
            (.received (some res))
          = { status := 200, contentType := "image/jpeg", body := .content res.Data }) := by
  have hh : handleGetFrameRequest join env a r width height thumbnail
      = .submit { filepath := storage.GetPath join a.sto r.filename, index := i,
                  width := width, height := height, thumbnail := thumbnail }
          (respond env r) := by
    simp [handleGetFrameRequest, hidx]
  have hserve : ∀ res : framer.Result, res.Err = none → res.Data.length ≠ 0 →
      respond env r (.received (some res))
        = ServeContent env r.header "image/jpeg" res.Data := by
    intro res he hd
    simp [respond, he, hd]
  rw [hh]
  refine ⟨rfl, rfl, ?_, ?_, ?_, ?_⟩
  · intro res he
    simp [Handling.response, respond, he, httpError, StatusInternalServerError]
  · intro res he hd
    simp [Handling.response, respond, he, hd, httpError, StatusBadRequest]
  · intro res he hd
    exact hserve res he hd
  · intro h1 h2 h3 h4 h5 res he hd
    show respond env r (.received (some res)) = _
    rw [hserve res he hd]
    simp [ServeContent, checkPreconditions, checkIfMatch, checkIfUnmodifiedSince,
      checkIfNoneMatch, checkIfModifiedSince, h1, h2, h3, h4, h5, parseRange, sumRangesSize,
      serveRanges, StatusOK]

/-- Claim C7 as amended at the request for frame 3 of `f.mp4` without Range
and conditional headers. -/
theorem handleGetFrameRequest_response_witness :
    ((handleGetFrameRequest demoJoin demoEnv demoAPI ⟨"f.mp4", "3", "", "", noHeader⟩
        0 0 false).response (.received (some { Data := [], Err := none }))).status = 400 ∧
    (handleGetFrameRequest demoJoin demoEnv demoAPI ⟨"f.mp4", "3", "", "", noHeader⟩
        0 0 false).response (.received (some { Data := [255, 216], Err := none }))
      = { status := 200, contentType := "image/jpeg", body := .content [255, 216] } :=
  ⟨(handleGetFrameRequest_response demoJoin demoEnv demoAPI ⟨"f.mp4", "3", "", "", noHeader⟩
      0 0 false 3 (by decide)).2.2.2.1 { Data := [], Err := none } rfl rfl,
   (handleGetFrameRequest_response demoJoin demoEnv demoAPI ⟨"f.mp4", "3", "", "", noHeader⟩
      0 0 false 3 (by decide)).2.2.2.2.2 rfl rfl rfl rfl rfl
      { Data := [255, 216], Err := none } rfl (by decide)⟩

/-- Claim C7 fails as stated: the request for frame 3 of `f.mp4` with the
header `Range: bytes=0-0` parses, its context is not cancelled, the result has
no error and two bytes of data, and the reply is not 200 with the data as
body but 206 with the first byte. -/
theorem ranged_frame_request_gets_partial_content :
    Atoi "3" = some 3 ∧
    (handleGetFrameRequest demoJoin demoEnv demoAPI
        ⟨"f.mp4", "3", "", "", { noHeader with Range := "bytes=0-0" }⟩ 0 0 false).response
        (.received (some { Data := [255, 216], Err := none }))
      = { status := 206, contentType := "image/jpeg", body := .content [255] } := by
  decide

/-- Claim C8 fails as stated: for `index=-1` and `width=-5` `GetFrame` does not
answer 400, it submits a job with index -1 and width -5. -/
theorem getFrame_submits_negative_values :
    (GetFrame demoJoin demoEnv demoAPI ⟨"f.mp4", "-1", "-5", "", noHeader⟩).job
      = some { filepath := "videos/f.mp4", index := -1, width := -5, height := 0,
               thumbnail := false } := by
  decide

/-- Claim C8 as amended.  `GetFrame` answers 400 without submitting a job when
`strconv.Atoi` rejects the index, a non-empty width or a non-empty height;
otherwise it submits the job with the parsed values, negative ones included,
an empty or absent width or height standing for 0. -/
theorem getFrame_validation (join : String → String → String) (env : Env) (a : API)
    (r : Request) :
    ((Atoi r.index = none ∨ (r.width ≠ "" ∧ Atoi r.width = none)
        ∨ (r.height ≠ "" ∧ Atoi r.height = none)) →
      (GetFrame join env a r).job = none ∧
      ∀ w, ((GetFrame join env a r).response w).status = 400) ∧
    (∀ i w h : Int, Atoi r.index = some i →
      (if r.width ≠ "" then Atoi r.width else some 0) = some w →
      (if r.height ≠ "" then Atoi r.height else some 0) = some h →
      (GetFrame join env a r).job
        = some { filepath := storage.GetPath join a.sto r.filename, index := i, width := w,
                 height := h, thumbnail := false }) := by
  constructor
  · intro h
    cases hw : (if r.width ≠ "" then Atoi r.width else some 0) with
    | none =>
      simp only [GetFrame, hw]
      exact ⟨rfl, fun _ => rfl⟩
    | some w =>
      cases hh : (if r.height ≠ "" then Atoi r.height else some 0) with
      | none =>
        simp only [GetFrame, hw, hh]
        exact ⟨rfl, fun _ => rfl⟩
      | some ht =>
        cases hi : Atoi r.index with
        | none =>
          simp only [GetFrame, hw, hh, handleGetFrameRequest, hi]
          exact ⟨rfl, fun _ => rfl⟩
        | some i =>
          rcases h with h | h | h
          · simp [h] at hi
          · simp [h.1, h.2] at hw
          · simp [h.1, h.2] at hh
  · intro i w h hi hw hh
    simp [GetFrame, hw, hh, handleGetFrameRequest, hi, Handling.job]

/-- Claim C8 as amended at `width=x` (rejected) and at `index=12&height=+48`
(submitted). -/
theorem getFrame_validation_witness :
    ((GetFrame demoJoin demoEnv demoAPI ⟨"f.mp4", "1", "x", "", noHeader⟩).job = none ∧
      ∀ w, ((GetFrame demoJoin demoEnv demoAPI ⟨"f.mp4", "1", "x", "", noHeader⟩).response w).status = 400) ∧
    (GetFrame demoJoin demoEnv demoAPI ⟨"f.mp4", "12", "", "+48", noHeader⟩).job
      = some { filepath := "videos/f.mp4", index := 12, width := 0, height := 48,
               thumbnail := false } :=
  ⟨(getFrame_validation demoJoin demoEnv demoAPI ⟨"f.mp4", "1", "x", "", noHeader⟩).1
      (Or.inr (Or.inl ⟨by decide, by decide⟩)),
   (getFrame_validation demoJoin demoEnv demoAPI ⟨"f.mp4", "12", "", "+48", noHeader⟩).2 12 0 48
      (by decide) (by decide) (by decide)⟩

/-- Claim C9.  The filter chain `extractFrame` builds is the chain the
specification words, the numbers written as decimal numerals: `select` with
`gte(n,index)`; then `scale` with `w:h:force_original_aspect_ratio=decrease`
exactly when the width or the height is positive, a dimension that is not
positive written as `-1` and a positive one unchanged; then `pad` with
`w:h:(ow-iw)/2:(oh-ih)/2` exactly when thumbnail is set and both are
positive. -/
theorem extractFrame_filter_chain (index width height : Int) (thumbnail : Bool) :
    framer.extractFrameFilters index width height thumbnail
      = framer.specFilters index width height thumbnail := by
  have hneg : fmtD (-1) = "-1" := by decide
  unfold framer.extractFrameFilters framer.specFilters framer.specDim
  by_cases hw : 0 < width <;> by_cases hh : 0 < height <;> cases thumbnail <;>
    simp [hw, hh, not_lt.mp, Int.not_le.mpr, hneg, fmtD_eq_decimal]

/-- Claim C9 at four requests: a frame with a width only, a thumbnail, a
thumbnail request without a positive dimension, a negative index. -/
theorem extractFrame_filter_chain_witness :
    framer.extractFrameFilters 5 64 0 true
      = [⟨"select", "gte(n,5)"⟩, ⟨"scale", "64:-1:force_original_aspect_ratio=decrease"⟩] ∧
    framer.extractFrameFilters 120 64 48 true
      = [⟨"select", "gte(n,120)"⟩, ⟨"scale", "64:48:force_original_aspect_ratio=decrease"⟩,
         ⟨"pad", "64:48:(ow-iw)/2:(oh-ih)/2"⟩] ∧
    framer.extractFrameFilters 7 0 (-3) true = [⟨"select", "gte(n,7)"⟩] ∧
    framer.extractFrameFilters (-1) (-5) 300 false
      = [⟨"select", "gte(n,-1)"⟩, ⟨"scale", "-1:300:force_original_aspect_ratio=decrease"⟩] ∧
    framer.specFilters 120 64 48 true
      = [⟨"select", "gte(n,120)"⟩, ⟨"scale", "64:48:force_original_aspect_ratio=decrease"⟩,
         ⟨"pad", "64:48:(ow-iw)/2:(oh-ih)/2"⟩] :=
  ⟨by decide, by decide, by decide, by decide,
    (extractFrame_filter_chain 120 64 48 true).symm.trans (by decide)⟩

/-- Claim C10.  `NewFramer` replaces a `MaxProcesses` that is not positive by
16; `NewAPI` replaces a `ListenPort` that is not positive by 3000 and a
`ThumbnailWidth` or `ThumbnailHeight` that is not positive by 128; positive
values and every other field are kept, and `NewAPI` returns a nil error. -/
theorem constructors_apply_defaults (fc : framer.Config) (ac : api.Config)
    (frm : framer.Framer) (sto : storage.Storage) :
    (framer.NewFramer fc).cfg.MaxProcesses
      = (if fc.MaxProcesses ≤ 0 then 16 else fc.MaxProcesses) ∧
    (NewAPI ac frm sto).1.cfg
      = { IsProd := ac.IsProd,
          ListenPort := if ac.ListenPort ≤ 0 then 3000 else ac.ListenPort,
          ThumbnailWidth := if ac.ThumbnailWidth ≤ 0 then 128 else ac.ThumbnailWidth,
          ThumbnailHeight := if ac.ThumbnailHeight ≤ 0 then 128 else ac.ThumbnailHeight } ∧
    (NewAPI ac frm sto).1.frm = frm ∧ (NewAPI ac frm sto).1.sto = sto ∧
    (NewAPI ac frm sto).2 = none := by
  refine ⟨?_, ?_, rfl, rfl, rfl⟩
  · unfold framer.NewFramer
    split <;> rfl
  · unfold NewAPI
    simp only
    split <;> split <;> split <;> simp_all
